import Mathlib

/-!
Verification development for the zod-factory mock-generation engine
(`zod-mock/mod.ts`, `zod-mockery-map.ts` and the factory wrapper).

The engine is a recursive, depth-bounded interpreter over schema nodes.  We
embed it shallowly:

* `SchemaNode` is the read-only schema description (the zod `_def` data the
  engine actually consults: type tag, checks, child schemas).  The lazy
  getter is modelled by the schema it returns; transform effects are
  modelled by an optional pure function that may fault.
* The external faker library (the Random Source Facade) is modelled as a
  deterministic function of an explicit `FakerState` (seed plus draw index):
  identical seed gives an identical output sequence, which is the documented
  contract of the facade.  Each faker primitive consumes one draw.
  `faker.seed(s)` resets the state.  The wall clock consulted by
  `faker.date.recent()` is modelled by a fixed reference instant.
* Two faker instances are threaded: `fk`, the instance carried in the
  options (created or seeded by `generateMock`), and `gl`, the module-global
  `faker` imported at the top of the file, which `parseUuid` draws from.
* JavaScript exceptions are modelled with `Except`: `GErr.runtime` is any
  runtime fault, `GErr.mock tag` is the `ZodMockError` carrying a type tag.
  `GErr.fuel` and `GErr.diverge` are modelling devices for the fuel bound of
  the interpreter and for the unbounded `while` loops of the set/map
  synthesizers; they correspond to non-termination, not to exceptions, and
  are therefore not caught by the `catch` at the entry point.
* Caller-supplied callbacks (`stringMap` entries, `backupMocks` entries,
  transform functions) are opaque to the engine; they are modelled by the
  value they return (or a fault), not by their internals.
-/

namespace ZodFactory

/-- Generated mock values.  `undef` is the Absent sentinel (JS `undefined`),
`vnull` is JS `null`, `nan` the not-a-number sentinel.  A generated function
stub is opaque (`funcV`): the engine only ever builds it, never calls it. -/
inductive Value where
  | str (s : String)
  | num (n : Int)
  | bool (b : Bool)
  | date (t : Int)
  | nan
  | vnull
  | undef
  | arr (vs : List Value)
  | obj (fields : List (String × Value))
  | setv (vs : List Value)
  | mapv (entries : List (Value × Value))
  | promise (v : Value)
  | funcV
  deriving Repr

/-- String checks attached to a `ZodString` node (`_def.checks`).  `kind k`
covers the remaining check kinds the synthesizer only looks at by name
(for example `email`, `uuid`, `url`, `datetime`). -/
inductive StrCheck where
  | min (n : Nat)
  | max (n : Nat)
  | len (n : Nat)
  | regex (pat : String)
  | kind (k : String)
  deriving Repr

/-- The `kind` discriminator string of a string check, as the source reads
`item.kind`.  The `length` check has kind `length`. -/
def StrCheck.kindOf : StrCheck → String
  | .min _ => "min"
  | .max _ => "max"
  | .len _ => "length"
  | .regex _ => "regex"
  | .kind k => k

/-- Number checks attached to a `ZodNumber` (or `ZodBigInt`) node. -/
inductive NumCheck where
  | min (v : Int)
  | max (v : Int)
  | int
  | other
  deriving Repr

/-- Date checks attached to a `ZodDate` node.  The check value is a
timestamp; `none` models an internally invalid bound (a non-Date,
non-numeric value, or a NaN number), which `parseDate` skips with a
console warning. -/
inductive DateCheck where
  | min (v : Option Int)
  | max (v : Option Int)
  deriving Repr

/-- A schema node: the type tag together with the `_def` fields each
synthesizer reads.  `zlazy` holds the schema its getter returns;
`zdefault` holds the value its `defaultValue` thunk returns; `zeffects`
holds `some f` for a transform-type effect (the caller's transform
function, which may fault) and `none` for refine/preprocess effects.
`custom tag` is a node whose type tag is outside the built-in registry. -/
inductive SchemaNode where
  | zstring (checks : List StrCheck)
  | znumber (checks : List NumCheck)
  | zbigint (checks : List NumCheck)
  | zboolean
  | zdate (checks : List DateCheck)
  | zobject (fields : List (String × SchemaNode))
  | zrecord (keySchema valueSchema : SchemaNode)
  | zarray (minLength maxLength exactLength : Option Nat) (element : SchemaNode)
  | zset (minSize maxSize : Option Nat) (valueType : SchemaNode)
  | zmap (keyType valueType : SchemaNode)
  | zenum (values : List Value)
  | znativeEnum (values : List Value)
  | zliteral (value : Value)
  | zunion (alts : List SchemaNode)
  | zdiscUnion (alts : List SchemaNode)
  | zintersection (left right : SchemaNode)
  | ztuple (items : List SchemaNode) (rest : Option SchemaNode)
  | zoptional (inner : SchemaNode)
  | znullable (inner : SchemaNode)
  | zdefault (defaultValue : Value) (innerType : SchemaNode)
  | zbranded (inner : SchemaNode)
  | zeffects (schema : SchemaNode) (transform : Option (Value → Except Unit Value))
  | zfunction (returns : SchemaNode)
  | zpromise (inner : SchemaNode)
  | zlazy (inner : SchemaNode)
  | zvoid
  | znull
  | zundefined
  | znan
  | zuuid
  | custom (tag : String)

/-- The `_def.typeName` discriminator the dispatch registry is keyed by. -/
def typeName : SchemaNode → String
  | .zstring _ => "ZodString"
  | .znumber _ => "ZodNumber"
  | .zbigint _ => "ZodBigInt"
  | .zboolean => "ZodBoolean"
  | .zdate _ => "ZodDate"
  | .zobject _ => "ZodObject"
  | .zrecord _ _ => "ZodRecord"
  | .zarray _ _ _ _ => "ZodArray"
  | .zset _ _ _ => "ZodSet"
  | .zmap _ _ => "ZodMap"
  | .zenum _ => "ZodEnum"
  | .znativeEnum _ => "ZodNativeEnum"
  | .zliteral _ => "ZodLiteral"
  | .zunion _ => "ZodUnion"
  | .zdiscUnion _ => "ZodDiscriminatedUnion"
  | .zintersection _ _ => "ZodIntersection"
  | .ztuple _ _ => "ZodTuple"
  | .zoptional _ => "ZodOptional"
  | .znullable _ => "ZodNullable"
  | .zdefault _ _ => "ZodDefault"
  | .zbranded _ => "ZodBranded"
  | .zeffects _ _ => "ZodEffects"
  | .zfunction _ => "ZodFunction"
  | .zpromise _ => "ZodPromise"
  | .zlazy _ => "ZodLazy"
  | .zvoid => "ZodVoid"
  | .znull => "ZodNull"
  | .zundefined => "ZodUndefined"
  | .znan => "ZodNaN"
  | .zuuid => "ZodUuid"
  | .custom tag => tag

/-- The keys of the built-in dispatch registry `workerMap` (including
`ZodTransformer`, registered to the same synthesizer as `ZodEffects`). -/
def workerMapKeys : List String :=
  ["ZodObject", "ZodRecord", "ZodArray", "ZodSet", "ZodMap", "ZodLazy",
   "ZodUnion", "ZodIntersection", "ZodDiscriminatedUnion", "ZodOptional",
   "ZodNullable", "ZodTransformer", "ZodEffects", "ZodFunction",
   "ZodPromise", "ZodTuple", "ZodString", "ZodNumber", "ZodBigInt",
   "ZodBoolean", "ZodDate", "ZodEnum", "ZodNativeEnum", "ZodLiteral",
   "ZodBranded", "ZodNull", "ZodNaN", "ZodDefault", "ZodVoid",
   "ZodUndefined", "ZodUuid"]

/-! ## The Random Source Facade

The faker library is external; we model it as the seedable deterministic
facade the spec describes: a state is a seed plus a position in the seeded
stream, every primitive consumes one draw and computes its output from it. -/

/-- State of one faker instance: the seed in effect and the index of the
next draw in its stream. -/
structure FakerState where
  sd : Nat
  ix : Nat
  deriving DecidableEq, Repr

/-- The raw draw at the current position of the stream (a Weyl-style mixing
of seed and index; any fixed injective-in-practice function would do). -/
def frand (st : FakerState) : Nat := (st.sd + 1 + st.ix * 2654435761) % 4294967296

/-- Advance the stream by one draw. -/
def fnext (st : FakerState) : FakerState := ⟨st.sd, st.ix + 1⟩

/-- The faker `seed` method: resets the instance to the start of the stream
of the given seed. -/
def fakerSeed (s : Nat) : FakerState := ⟨s, 0⟩

/-- Largest value faker draws for an unbounded integer request
(`Number.MAX_SAFE_INTEGER`). -/
def fakerMaxSafe : Int := 9007199254740991

/-- Model of the clock instant faker consults when a reference date is
needed (for example `faker.date.recent()` with no `refDate`). -/
def epochNow : Int := 1700000000000

/-- One day in milliseconds. -/
def dayMs : Int := 86400000

/-- The faker `number.int` primitive with optional `min` and `max`.  Faker
throws when the requested minimum exceeds the requested maximum; this is
the runtime fault the string synthesizer can hit. -/
def fakerInt (mn mx : Option Int) (st : FakerState) :
    Except Unit Int × FakerState :=
  let lo := mn.getD 0
  let hi := mx.getD fakerMaxSafe
  if lo > hi then (.error (), st)
  else (.ok (lo + (frand st : Int) % (hi - lo + 1)), fnext st)

/-- The faker `datatype.boolean` primitive. -/
def fakerBoolean (st : FakerState) : Bool × FakerState :=
  (frand st % 2 == 0, fnext st)

/-- A lower-case letter derived from a raw draw. -/
def letterOf (n : Nat) : Char := Char.ofNat (97 + n % 26)

/-- A word of the given length whose letters are derived from the current
draw. -/
def wordOfLength (len : Nat) (st : FakerState) : String :=
  String.mk ((List.range len).map (fun i => letterOf (frand st + i)))

/-- The faker `lorem.word` primitive with an exact `length` argument. -/
def fakerLoremWordLen (len : Nat) (st : FakerState) : String × FakerState :=
  (wordOfLength len st, fnext st)

/-- The faker `lorem.word` primitive with no argument: an unconstrained
word of small positive length. -/
def fakerLoremWord (st : FakerState) : String × FakerState :=
  (wordOfLength (frand st % 9 + 2) st, fnext st)

/-- The faker `string.alpha` primitive with a `length` argument.  A
non-positive requested length yields the empty string. -/
def fakerAlpha (len : Int) (st : FakerState) : String × FakerState :=
  if len ≤ 0 then ("", fnext st) else (wordOfLength len.toNat st, fnext st)

/-- The faker `string.uuid` primitive. -/
def fakerUuid (st : FakerState) : String × FakerState :=
  ("uuid-" ++ toString (frand st), fnext st)

/-- The faker `internet.email` primitive. -/
def fakerEmail (st : FakerState) : String × FakerState :=
  ("user" ++ toString (frand st) ++ "@example.com", fnext st)

/-- The faker `internet.url` primitive. -/
def fakerUrl (st : FakerState) : String × FakerState :=
  ("https://host" ++ toString (frand st) ++ ".example", fnext st)

/-- The faker `person.fullName` primitive. -/
def fakerFullName (st : FakerState) : String × FakerState :=
  ("Name " ++ wordOfLength 6 st, fnext st)

/-- The faker `internet.color` primitive. -/
def fakerColor (st : FakerState) : String × FakerState :=
  ("#" ++ toString (frand st % 16777216), fnext st)

/-- The faker `phone.number` primitive. -/
def fakerPhone (st : FakerState) : String × FakerState :=
  ("+1" ++ toString (frand st % 10000000000), fnext st)

/-- The faker `image.url` primitive. -/
def fakerImageUrl (st : FakerState) : String × FakerState :=
  ("https://img" ++ toString (frand st) ++ ".example/img.png", fnext st)

/-- The faker `location.city` primitive. -/
def fakerCity (st : FakerState) : String × FakerState :=
  ("City " ++ wordOfLength 5 st, fnext st)

/-- The faker `date.between` primitive: a timestamp in the inclusive range
(the caller guarantees `lo ≤ hi`). -/
def fakerDateBetween (lo hi : Int) (st : FakerState) : Int × FakerState :=
  (lo + (frand st : Int) % (hi - lo + 1), fnext st)

/-- The faker `date.soon` primitive with a reference date: a timestamp
shortly after it. -/
def fakerDateSoon (refDate : Int) (st : FakerState) : Int × FakerState :=
  (refDate + 1 + (frand st : Int) % dayMs, fnext st)

/-- The faker `date.recent` primitive with a reference date: a timestamp
shortly before it. -/
def fakerDateRecent (refDate : Int) (st : FakerState) : Int × FakerState :=
  (refDate - 1 - (frand st : Int) % dayMs, fnext st)

/-- The faker `date.recent` primitive with a `days` window and the ambient
clock as reference. -/
def fakerDateRecentDays (days : Nat) (st : FakerState) : Int × FakerState :=
  (epochNow - 1 - (frand st : Int) % ((days : Int) * dayMs + 1), fnext st)

/-- The faker `helpers.arrayElement` primitive.  Faker faults on an empty
candidate list. -/
def fakerArrayElement {α : Type} (l : List α) (st : FakerState) :
    Except Unit α × FakerState :=
  match l with
  | [] => (.error (), st)
  | x :: xs => (.ok ((x :: xs).getD (frand st % (xs.length + 1)) x), fnext st)

/-- A named faker generator as the string synthesizer consumes it: its
output is already coerced with `toString` (the source applies `.toString()`
to every generator result, which is a string, number, boolean or date). -/
def FakerFn : Type := FakerState → String × FakerState

end ZodFactory

namespace ZodFactory

/-! ## Field-name heuristics (`zod-mockery-map.ts` and `findMatchingFaker`) -/

/-- ASCII lower-casing of one character (the JS `toLowerCase` as the
engine uses it on identifier-like key names). -/
def lowerChar (c : Char) : Char :=
  if 65 ≤ c.toNat ∧ c.toNat ≤ 90 then Char.ofNat (c.toNat + 32) else c

/-- ASCII lower-casing of a string. -/
def strLower (s : String) : String := String.mk (s.toList.map lowerChar)

/-- ASCII upper-casing of one character. -/
def upperChar (c : Char) : Char :=
  if 97 ≤ c.toNat ∧ c.toNat ≤ 122 then Char.ofNat (c.toNat - 32) else c

/-- ASCII upper-casing of a string. -/
def strUpper (s : String) : String := String.mk (s.toList.map upperChar)

/-- The explicit key-name-to-generator map of `zod-mockery-map.ts`
(`mockeryMapper`).  An empty key name is falsy in the source and yields no
generator. -/
def mockeryMapper (keyName : String) : Option FakerFn :=
  if keyName = "" then none
  else
    let k := strLower keyName
    if k = "image" then some fakerImageUrl
    else if k = "imageurl" then some fakerImageUrl
    else if k = "number" then some (fun st =>
      match fakerInt none none st with
      | (.ok n, st') => (toString n, st')
      | (.error _, st') => ("", st'))
    else if k = "float" then some (fun st => ("0." ++ toString (frand st), fnext st))
    else if k = "hexadecimal" then some (fun st => ("0x" ++ toString (frand st % 256), fnext st))
    else if k = "uuid" then some fakerUuid
    else if k = "boolean" then some (fun st =>
      let (b, st') := fakerBoolean st
      (if b then "true" else "false", st'))
    else if k = "city" then some fakerCity
    else none

/-- Model of the reflective scan of the faker library performed by
`findMatchingFaker`: a fixed catalog of (lower-cased function name,
generator) pairs standing in for the sections of the external faker
instance, restricted to entries that take no required arguments and return
a primitive value, which is exactly what the probing in the source
filters for. -/
def fakerCatalog : List (String × FakerFn) :=
  [("email", fakerEmail), ("url", fakerUrl), ("uuid", fakerUuid),
   ("fullname", fakerFullName), ("firstname", fakerFullName),
   ("lastname", fakerFullName), ("city", fakerCity), ("word", fakerLoremWord),
   ("jobtitle", fakerFullName), ("color", fakerColor)]

/-- Strip underscores and dashes, as `keyName.replace` with the delimiter
pattern does. -/
def stripDelims (s : String) : String :=
  String.mk (s.toList.filter (fun c => c ≠ '_' ∧ c ≠ '-'))

/-- The field-name heuristic resolver `findMatchingFaker`: the (custom or
default) mockery mapper is consulted first and always wins; otherwise the
catalog is scanned for a function whose lower-cased name equals the
lower-cased key name or the key name with delimiters stripped. -/
def findMatchingFaker (keyName : String)
    (mapper : Option (String → Option FakerFn)) : Option FakerFn :=
  let lowerCaseKeyName := strLower keyName
  let withoutDashesUnderscores := stripDelims lowerCaseKeyName
  match (mapper.getD mockeryMapper) keyName with
  | some f => some f
  | none =>
    (fakerCatalog.find? (fun p =>
      p.1 == lowerCaseKeyName || p.1 == withoutDashesUnderscores)).map Prod.snd

/-! ## Errors, state and options -/

/-- Failure modes of a generation step.  `mock tag` is the `ZodMockError`
carrying the offending type tag; `runtime` is any other JavaScript
exception; `fuel` and `diverge` model non-termination (interpreter fuel and
the unbounded set/map sampling loops) and are not exceptions. -/
inductive GErr where
  | fuel
  | runtime
  | mock (tag : String)
  | diverge
  deriving DecidableEq, Repr

/-- The two faker instances visible to the engine: `fk` is the instance in
the options (seeded by `generateMock` when a seed is given) and `gl` is the
module-global `faker` that `parseUuid` draws from. -/
structure RState where
  fk : FakerState
  gl : FakerState
  deriving DecidableEq, Repr

/-- A caller-supplied backup mock for a type tag: an opaque callback that is
handed the schema node and either returns a value or faults.  (The options
argument the source also passes is not consulted by the model; the callback
is external code.) -/
def BackupMock : Type := SchemaNode → Except Unit Value

/-- The recognized configuration options of `generateMock`.  The faker
instance itself is threaded as state (`RState.fk`), not stored here. -/
structure GenOptions where
  keyName : Option String := none
  stringMap : Option (String → Option String) := none
  mockeryMapper : Option (String → Option FakerFn) := none
  backupMocks : Option (String → Option BackupMock) := none
  recordKeysLength : Option Nat := none
  mapEntriesLength : Option Nat := none
  throwOnUnknownType : Option Bool := none
  seed : Option Nat := none
  currentDepth : Option Nat := none
  maxDepth : Option Nat := none

/-- Result of one generation step: the produced value or an error, together
with the states of both faker instances (faker state survives a fault, as
the instances are heap objects). -/
abbrev GenRes := Except GErr Value × RState

/-- The type of the recursive entry point a synthesizer calls back into. -/
abbrev Gen := SchemaNode → GenOptions → RState → GenRes

/-- Look up a backup mock for a type tag. -/
def backupLookup (o : GenOptions) (tag : String) : Option BackupMock :=
  match o.backupMocks with
  | some m => m tag
  | none => none

/-- Invoke a caller-supplied backup mock; a fault inside it is a runtime
fault of the synthesizer. -/
def runBackup (m : BackupMock) (s : SchemaNode) (st : RState) : GenRes :=
  match m s with
  | .ok v => (.ok v, st)
  | .error _ => (.error .runtime, st)

/-- The `catch` of `generateMock`: a runtime fault is logged and downgraded
to Absent; a `ZodMockError` is re-thrown.  (Fuel exhaustion and divergence
model non-termination, which a `catch` does not see.) -/
def catchRuntime (r : GenRes) : GenRes :=
  match r with
  | (.error .runtime, st) => (.ok .undef, st)
  | x => x

/-! ## The depth guard -/

/-- Depths in effect after the option defaulting both `generateMock` and
`depthControlled` perform (`maxDepth: 10, currentDepth: 0, ...options`). -/
def defaultDepths (o : GenOptions) : GenOptions :=
  { o with currentDepth := some (o.currentDepth.getD 0),
           maxDepth := some (o.maxDepth.getD 10) }

/-- Whether the depth ceiling is reached (`currentDepth >= maxDepth`). -/
def depthReached (o : GenOptions) : Bool :=
  o.maxDepth.getD 10 ≤ o.currentDepth.getD 0

/-- The options a depth-controlled synthesizer is invoked with: defaults
applied and `currentDepth` incremented by one. -/
def bumpDepth (o : GenOptions) : GenOptions :=
  { o with maxDepth := some (o.maxDepth.getD 10),
           currentDepth := some (o.currentDepth.getD 0 + 1) }

/-- The type-appropriate empty default `depthControlled` returns at the
ceiling: an empty object, array, set or map for the corresponding node
kinds, and Absent otherwise (in particular for lazy nodes). -/
def depthDefault : SchemaNode → Value
  | .zobject _ => .obj []
  | .zarray _ _ _ _ => .arr []
  | .zset _ _ _ => .setv []
  | .zmap _ _ => .mapv []
  | .zlazy _ => .undef
  | _ => (.undef)

/-- The `depthControlled` wrapper: at or above the ceiling return the
type-appropriate default without recursing, otherwise invoke the wrapped
synthesizer with the depth incremented by one. -/
def depthControlled (f : GenOptions → RState → GenRes) (s : SchemaNode)
    (o : GenOptions) (st : RState) : GenRes :=
  let d := defaultDepths o
  if depthReached d then (.ok (depthDefault s), st)
  else f (bumpDepth d) st

/-- The seeding step at the head of `generateMock`: when a seed option is
present the options faker is re-seeded. -/
def seedApply (o : GenOptions) (st : RState) : RState :=
  match o.seed with
  | some sd => { st with fk := fakerSeed sd }
  | none => st

end ZodFactory

namespace ZodFactory

/-! ## Value helpers (JavaScript object semantics) -/

/-- Conversion of a generated value to a property key, as the computed key
`[generateMock(keySchema, options)]` performs.  Primitive conversions follow
JavaScript; composites are approximated by fixed strings (no claim depends
on composite record keys). -/
def keyToString : Value → String
  | .str s => s
  | .num n => toString n
  | .bool b => if b then "true" else "false"
  | .date t => "Date-" ++ toString t
  | .nan => "NaN"
  | .undef => "undefined"
  | .vnull => "null"
  | .arr _ => "array"
  | .obj _ => "[object Object]"
  | .setv _ => "[object Set]"
  | .mapv _ => "[object Map]"
  | .promise _ => "[object Promise]"
  | .funcV => "function"

/-- The SameValueZero key equality of JS `Set` and `Map`.  Freshly
generated dates and composites are distinct heap objects, hence never equal
to anything; primitives compare by value; NaN equals NaN. -/
def sameValueZero : Value → Value → Bool
  | .str a, .str b => a == b
  | .num a, .num b => a == b
  | .bool a, .bool b => a == b
  | .nan, .nan => true
  | .undef, .undef => true
  | .vnull, .vnull => true
  | _, _ => false

/-- Insert a property, overwriting in place if the key already exists
(`{...prev, [key]: value}` semantics: order of an existing key is kept). -/
def insertOverwrite (l : List (String × Value)) (k : String) (v : Value) :
    List (String × Value) :=
  if l.any (fun p => p.1 == k) then
    l.map (fun p => if p.1 == k then (k, v) else p)
  else l ++ [(k, v)]

/-- JS `Map.set`: overwrite the value of an existing (SameValueZero-equal)
key in place, else append. -/
def mapSet (l : List (Value × Value)) (k v : Value) : List (Value × Value) :=
  if l.any (fun p => sameValueZero p.1 k) then
    l.map (fun p => if sameValueZero p.1 k then (p.1, v) else p)
  else l ++ [(k, v)]

/-- JS `Set.add`: keep the set unchanged when a SameValueZero-equal element
is present, else append. -/
def setAdd (l : List Value) (v : Value) : List Value :=
  if l.any (fun x => sameValueZero x v) then l else l ++ [v]

/-- JS `Object.assign(left, right)` as the intersection synthesizer uses
it: assigning onto `undefined` or `null` throws; two objects merge with the
right operand overwriting; a primitive target is boxed and keeps its
primitive value; a non-object source contributes nothing (string sources,
which would contribute indexed characters, are approximated likewise). -/
def objectAssign (lv rv : Value) : Except GErr Value :=
  match lv with
  | .undef => .error .runtime
  | .vnull => .error .runtime
  | .obj fl =>
    match rv with
    | .obj fr => .ok (.obj (fr.foldl (fun acc p => insertOverwrite acc p.1 p.2) fl))
    | _ => .ok (.obj fl)
  | _ => .ok lv

/-! ## Pure per-type synthesizers (no recursion into the entry point) -/

/-- Abstract stand-in for the external RandExp generator: a string derived
from the pattern and one draw from the options faker (whose `randInt` the
source overrides with `faker.number.int`).  A `max` check caps the
generator's repetition bound, not the length of the produced string. -/
def randexpGen (pat : String) (maxRep : Option Nat) (fk : FakerState) :
    String × FakerState :=
  ("regex-" ++ pat ++ "-" ++ toString (frand fk) ++
    (match maxRep with | some m => "-cap" ++ toString m | none => ""), fnext fk)

/-- The `stringOptions` accumulation of `parseString`: a `min` check sets
the minimum, a `max` check the maximum, a `length` check both. -/
def foldStringChecks (checks : List StrCheck) : Option Nat × Option Nat :=
  checks.foldl (fun so item =>
    match item with
    | .min v => (some v, so.2)
    | .max v => (so.1, some v)
    | .len v => (some v, some v)
    | _ => so) (none, none)

/-- The swap `parseString` applies to avoid a faker fault when `min > max`:
it only fires when both bounds are truthy (nonzero), mirroring the `&&`
chain of the source. -/
def sortStringOptions : Option Nat × Option Nat → Option Nat × Option Nat
  | (some mn, some mx) =>
    if mn ≠ 0 ∧ mx ≠ 0 ∧ mx < mn then (some mx, some mn) else (some mn, some mx)
  | p => p

/-- The keys of the `stringGenerators` object literal, in insertion
order. -/
def stringGeneratorKeys : List String :=
  ["default", "email", "uuid", "uid", "url", "name", "date", "dateTime",
   "colorHex", "color", "backgroundColor", "textShadow", "textColor",
   "textDecorationColor", "borderColor", "borderTopColor",
   "borderRightColor", "borderBottomColor", "borderLeftColor",
   "borderBlockStartColor", "borderBlockEndColor",
   "borderInlineStartColor", "borderInlineEndColor", "columnRuleColor",
   "outlineColor", "phoneNumber"]

/-- The generic fallback generator: an unconstrained lorem word when the
target length exceeds 10, else a word of exactly the target length. -/
def defaultGenerator (targetStringLength : Nat) : FakerFn := fun st =>
  if targetStringLength > 10 then fakerLoremWord st
  else fakerLoremWordLen targetStringLength st

/-- The `dateGenerator` of `parseString`: a recent date rendered as an ISO
string. -/
def dateGenerator : FakerFn := fun st =>
  let (t, st') := fakerDateRecentDays 1 st
  ("iso-" ++ toString t, st')

/-- Execute the named entry of the `stringGenerators` catalog. -/
def runStringGenerator (genKey : String) (targetStringLength : Nat) : FakerFn :=
  fun st =>
    if genKey = "default" then defaultGenerator targetStringLength st
    else if genKey = "email" then fakerEmail st
    else if genKey = "uuid" ∨ genKey = "uid" then fakerUuid st
    else if genKey = "url" then fakerUrl st
    else if genKey = "name" then fakerFullName st
    else if genKey = "date" ∨ genKey = "dateTime" then dateGenerator st
    else if genKey = "phoneNumber" then fakerPhone st
    else fakerColor st

/-- The generator-key selection of `parseString`: the first catalog key
whose lower-cased name equals the lower-cased field name, or whose name
matches some check kind case-insensitively (this is how `email`, `uuid`,
`url` and `datetime` checks select their generators). -/
def stringTypeOf (checks : List StrCheck) (keyName : Option String) :
    Option String :=
  stringGeneratorKeys.find? (fun genKey =>
    (match keyName with
     | some k => strLower genKey == strLower k
     | none => false)
    || checks.any (fun item => strUpper item.kindOf == strUpper genKey))

/-- JS `String.slice(0, mx)`: the first `mx` characters. -/
def strSlice (s : String) (mx : Nat) : String :=
  String.mk (s.toList.take mx)

/-- A length bound, as an argument for the faker integer primitive. -/
def natBound : Option Nat → Option Int
  | some v => some (v : Int)
  | none => none

/-- The content-generator selection of `parseString`: the named catalog
entry when the field name or a check kind selects one, else the field-name
heuristic resolver, else the generic fallback. -/
def pickStringGenerator (checks : List StrCheck) (o : GenOptions)
    (targetStringLength : Nat) : FakerFn :=
  match stringTypeOf checks o.keyName with
  | some genKey => runStringGenerator genKey targetStringLength
  | none =>
    match o.keyName with
    | some k =>
      if k ≠ "" then
        match findMatchingFaker k o.mockeryMapper with
        | some f => f
        | none => defaultGenerator targetStringLength
      else defaultGenerator targetStringLength
    | none => defaultGenerator targetStringLength

/-- The minimum-length padding of `parseString`: when the content is
shorter than the declared minimum, append random alphabetic characters;
the pad request is the distance from the content to the target length. -/
def padToMin (stringOptions : Option Nat × Option Nat)
    (targetStringLength : Nat) (val0 : String) (fk2 : FakerState) :
    String × FakerState :=
  let delta : Int := (targetStringLength : Int) - (val0.length : Int)
  match stringOptions.1 with
  | some mn =>
    if val0.length < mn then
      let (pad, fkp) := fakerAlpha delta fk2
      (val0 ++ pad, fkp)
    else (val0, fk2)
  | none => (val0, fk2)

/-- The final truncation of `parseString` to the declared maximum
(`val.slice(0, max)`; applied last, enforcing the max-wins policy). -/
def trimToMax (stringOptions : Option Nat × Option Nat) (val1 : String) :
    String :=
  match stringOptions.2 with
  | some mx => strSlice val1 mx
  | none => val1

/-- The portion of `parseString` past the regex and `stringMap` shortcuts:
derive a target length from the (swapped) bounds, pick a content generator,
then pad to the minimum and truncate to the maximum. -/
def parseStringCore (checks : List StrCheck) (o : GenOptions)
    (fk : FakerState) : Except GErr String × FakerState :=
  let stringOptions := foldStringChecks checks
  let sortedStringOptions := sortStringOptions stringOptions
  match fakerInt (natBound sortedStringOptions.1)
      (natBound sortedStringOptions.2) fk with
  | (.error _, fk1) => (.error .runtime, fk1)
  | (.ok tl, fk1) =>
    let targetStringLength := tl.toNat
    let (val0, fk2) := pickStringGenerator checks o targetStringLength fk1
    let (val1, fk3) := padToMin stringOptions targetStringLength val0 fk2
    (.ok (trimToMax stringOptions val1), fk3)

/-- The string synthesizer `parseString`: a regex check takes precedence
(RandExp generation, no length post-processing); then a caller-supplied
`stringMap` generator for the current field name is returned verbatim;
otherwise the generic path of `parseStringCore`. -/
def parseString (checks : List StrCheck) (o : GenOptions) (fk : FakerState) :
    Except GErr String × FakerState :=
  match checks.find? (fun c => c.kindOf == "regex") with
  | some (.regex pat) =>
    let maxRep := match checks.find? (fun c => c.kindOf == "max") with
      | some (.max v) => some v
      | _ => none
    let (s, fk') := randexpGen pat maxRep fk
    (.ok s, fk')
  | _ =>
    match o.keyName, o.stringMap with
    | some k, some m =>
      if k ≠ "" then
        match m k with
        | some s => (.ok s, fk)
        | none => parseStringCore checks o fk
      else parseStringCore checks o fk
    | _, _ => parseStringCore checks o fk

/-- The bound accumulation of `parseNumber` (an `int` check is ignored). -/
def foldNumberChecks (checks : List NumCheck) : Option Int × Option Int :=
  checks.foldl (fun fo item =>
    match item with
    | .min v => (some v, fo.2)
    | .max v => (fo.1, some v)
    | _ => fo) (none, none)

/-- The number synthesizer `parseNumber` (also registered for
`ZodBigInt`). -/
def parseNumber (checks : List NumCheck) (fk : FakerState) :
    Except GErr Int × FakerState :=
  let fakerOptions := foldNumberChecks checks
  match fakerInt fakerOptions.1 fakerOptions.2 fk with
  | (.ok n, fk') => (.ok n, fk')
  | (.error _, fk') => (.error .runtime, fk')

/-- The bound accumulation of `parseDate`: later checks of the same kind
win; an invalid bound value is warned about and skipped. -/
def foldDateChecks (checks : List DateCheck) : Option Int × Option Int :=
  checks.foldl (fun mm item =>
    match item with
    | .min (some v) => (some v, mm.2)
    | .max (some v) => (mm.1, some v)
    | .min none => mm
    | .max none => mm) (none, none)

/-- The date synthesizer `parseDate`: an inverted range is unsatisfiable
and yields Absent; a full range draws uniformly inside it; a single bound
stays in a short window on its safe side; no bounds give a recent date
within the last 30 days. -/
def parseDate (checks : List DateCheck) (fk : FakerState) :
    Except GErr Value × FakerState :=
  match foldDateChecks checks with
  | (some mn, some mx) =>
    if mx < mn then (.ok .undef, fk)
    else
      let (t, fk') := fakerDateBetween mn mx fk
      (.ok (.date t), fk')
  | (some mn, none) =>
    let (t, fk') := fakerDateSoon mn fk
    (.ok (.date t), fk')
  | (none, some mx) =>
    let (t, fk') := fakerDateRecent mx fk
    (.ok (.date t), fk')
  | (none, none) =>
    let (t, fk') := fakerDateRecentDays 30 fk
    (.ok (.date t), fk')

/-- The enum synthesizer `parseEnum`: a uniformly selected member. -/
def parseEnum (values : List Value) (fk : FakerState) :
    Except GErr Value × FakerState :=
  match fakerArrayElement values fk with
  | (.ok v, fk') => (.ok v, fk')
  | (.error _, fk') => (.error .runtime, fk')

/-- The native-enum synthesizer `parseNativeEnum`: a uniformly selected
member of the valid enum values. -/
def parseNativeEnum (values : List Value) (fk : FakerState) :
    Except GErr Value × FakerState :=
  match fakerArrayElement values fk with
  | (.ok v, fk') => (.ok v, fk')
  | (.error _, fk') => (.error .runtime, fk')

/-- The `ZodUuid` synthesizer `parseUuid`: it draws from the module-global
faker instance, not from the (possibly seeded) instance in the options. -/
def parseUuid (st : RState) : GenRes :=
  let (s, gl') := fakerUuid st.gl
  (.ok (.str s), { st with gl := gl' })

end ZodFactory

namespace ZodFactory

/-! ## Composite synthesizers, parameterized by the recursive entry point -/

/-- The field-by-field reduce of `parseObject`: each member is synthesized
with its own name placed in the context. -/
def genFields (g : Gen) (o : GenOptions) :
    List (String × SchemaNode) → RState →
      Except GErr (List (String × Value)) × RState
  | [], st => (.ok [], st)
  | f :: fs, st =>
    match g f.2 { o with keyName := some f.1 } st with
    | (.error e, st1) => (.error e, st1)
    | (.ok v, st1) =>
      match genFields g o fs st1 with
      | (.ok vs, st2) => (.ok ((f.1, v) :: vs), st2)
      | (.error e, st2) => (.error e, st2)

/-- The positional loop of `parseZodTuple`: each item synthesized in
declared order. -/
def genItems (g : Gen) (o : GenOptions) :
    List SchemaNode → RState → Except GErr (List Value) × RState
  | [], st => (.ok [], st)
  | s :: ss, st =>
    match g s o st with
    | (.error e, st1) => (.error e, st1)
    | (.ok v, st1) =>
      match genItems g o ss st1 with
      | (.ok vs, st2) => (.ok (v :: vs), st2)
      | (.error e, st2) => (.error e, st2)

/-- The element loop of `parseArray`: for each slot, a `ZodUndefined`
element with a registered `ZodUndefined` backup mock uses the backup
directly; every other element goes through the entry point. -/
def genCount (g : Gen) (element : SchemaNode) (o : GenOptions) :
    Nat → RState → Except GErr (List Value) × RState
  | 0, st => (.ok [], st)
  | k + 1, st =>
    let one : GenRes :=
      if typeName element == "ZodUndefined" then
        match backupLookup o "ZodUndefined" with
        | some m => runBackup m element st
        | none => g element o st
      else g element o st
    match one with
    | (.error e, st1) => (.error e, st1)
    | (.ok v, st1) =>
      match genCount g element o k st1 with
      | (.ok vs, st2) => (.ok (v :: vs), st2)
      | (.error e, st2) => (.error e, st2)

/-- The entry loop of `parseRecord`: key then value are synthesized per
slot and spread-inserted, so a colliding key overwrites instead of adding
an entry. -/
def genRecordLoop (g : Gen) (keySchema valueSchema : SchemaNode)
    (o : GenOptions) :
    Nat → List (String × Value) → RState →
      Except GErr (List (String × Value)) × RState
  | 0, acc, st => (.ok acc, st)
  | k + 1, acc, st =>
    match g keySchema o st with
    | (.error e, st1) => (.error e, st1)
    | (.ok kv, st1) =>
      match g valueSchema o st1 with
      | (.error e, st2) => (.error e, st2)
      | (.ok vv, st2) =>
        genRecordLoop g keySchema valueSchema o k
          (insertOverwrite acc (keyToString kv) vv) st2

/-- Attempt budget standing in for the unbounded `while` loops of the set
and map synthesizers: running out of it models divergence of the source
loop (the source never stops retrying). -/
def loopAttempts (target : Nat) : Nat := target + 128

/-- The rejection-sampling loop of `parseSet`: synthesize elements,
discarding duplicates, until the target cardinality is reached. -/
def setLoop (g : Gen) (valueType : SchemaNode) (o : GenOptions)
    (target : Nat) :
    Nat → List Value → RState → Except GErr (List Value) × RState
  | attempts, acc, st =>
    if target ≤ acc.length then (.ok acc, st)
    else
      match attempts with
      | 0 => (.error .diverge, st)
      | a + 1 =>
        match g valueType o st with
        | (.error e, st1) => (.error e, st1)
        | (.ok v, st1) => setLoop g valueType o target a (setAdd acc v) st1

/-- The entry loop of `parseMap`: synthesize key-value pairs, overwriting
on key collision, until the target entry count is reached. -/
def mapLoop (g : Gen) (keyType valueType : SchemaNode) (o : GenOptions)
    (target : Nat) :
    Nat → List (Value × Value) → RState →
      Except GErr (List (Value × Value)) × RState
  | attempts, acc, st =>
    if target ≤ acc.length then (.ok acc, st)
    else
      match attempts with
      | 0 => (.error .diverge, st)
      | a + 1 =>
        match g keyType o st with
        | (.error e, st1) => (.error e, st1)
        | (.ok kv, st1) =>
          match g valueType o st1 with
          | (.error e, st2) => (.error e, st2)
          | (.ok vv, st2) =>
            mapLoop g keyType valueType o target a (mapSet acc kv vv) st2

/-- The wrapped body of the object synthesizer: each declared member
synthesized with its own name in the context, in insertion order. -/
def parseObjectBody (g : Gen) (s : SchemaNode) (o2 : GenOptions)
    (st2 : RState) : GenRes :=
  match s with
  | .zobject fields =>
    match genFields g o2 fields st2 with
    | (.ok vs, st3) => (.ok (.obj vs), st3)
    | (.error e, st3) => (.error e, st3)
  | _ => (.error .runtime, st2)

/-- The object synthesizer `parseObject` (depth-controlled at its
definition in the source). -/
def parseObject (g : Gen) (s : SchemaNode) (o : GenOptions) (st : RState) :
    GenRes :=
  depthControlled (parseObjectBody g s) s o st

/-- The record synthesizer `parseRecord` (depth-controlled at its
registration in the worker map).  A falsy `recordKeysLength` (absent or
zero) becomes 1. -/
def parseRecord (g : Gen) (s : SchemaNode) (o : GenOptions) (st : RState) :
    GenRes :=
  match s with
  | .zrecord keySchema valueSchema =>
    let recordKeysLength :=
      match o.recordKeysLength with
      | some v => if v = 0 then 1 else v
      | none => 1
    match genRecordLoop g keySchema valueSchema o recordKeysLength [] st with
    | (.ok fs, st') => (.ok (.obj fs), st')
    | (.error e, st') => (.error e, st')
  | _ => (.error .runtime, st)

/-- The faker integer primitive at natural bounds (never faults when the
bounds are ordered). -/
def fakerIntNat (mn mx : Nat) (st : FakerState) :
    Except Unit Int × FakerState :=
  fakerInt (some (mn : Int)) (some (mx : Int)) st

/-- The clamped target-length bounds of the array synthesizer: exact
length falls back for either bound, defaults 0 and 10, and the minimum is
clamped to the maximum. -/
def arrayBounds (minLength maxLength exactLength : Option Nat) :
    Nat × Nat :=
  let mn0 := (minLength <|> exactLength).getD 0
  let mx := (maxLength <|> exactLength).getD 10
  (if mx < mn0 then mx else mn0, mx)

/-- The wrapped body of the array synthesizer: target length inside the
declared bounds, then that many elements. -/
def parseArrayBody (g : Gen) (s : SchemaNode) (o2 : GenOptions)
    (st2 : RState) : GenRes :=
  match s with
  | .zarray minLength maxLength exactLength element =>
    let bd := arrayBounds minLength maxLength exactLength
    match fakerIntNat bd.1 bd.2 st2.fk with
    | (.error _, fk1) => (.error .runtime, { st2 with fk := fk1 })
    | (.ok tl, fk1) =>
      match genCount g element o2 tl.toNat { st2 with fk := fk1 } with
      | (.ok vs, st3) => (.ok (.arr vs), st3)
      | (.error e, st3) => (.error e, st3)
  | _ => (.error .runtime, st2)

/-- The array synthesizer `parseArray` (depth-controlled at its
definition). -/
def parseArray (g : Gen) (s : SchemaNode) (o : GenOptions) (st : RState) :
    GenRes :=
  depthControlled (parseArrayBody g s) s o st

/-- The clamped target-cardinality bounds of the set synthesizer:
defaults 1 and 5, minimum clamped to the maximum. -/
def setBounds (minSize maxSize : Option Nat) : Nat × Nat :=
  let mn0 := minSize.getD 1
  let mx := maxSize.getD 5
  (if mx < mn0 then mx else mn0, mx)

/-- The wrapped body of the set synthesizer: target cardinality inside the
declared size bounds, then rejection sampling of distinct elements. -/
def parseSetBody (g : Gen) (s : SchemaNode) (o2 : GenOptions)
    (st2 : RState) : GenRes :=
  match s with
  | .zset minSize maxSize valueType =>
    let bd := setBounds minSize maxSize
    match fakerIntNat bd.1 bd.2 st2.fk with
    | (.error _, fk1) => (.error .runtime, { st2 with fk := fk1 })
    | (.ok tl, fk1) =>
      match setLoop g valueType o2 tl.toNat (loopAttempts tl.toNat) []
          { st2 with fk := fk1 } with
      | (.ok vs, st3) => (.ok (.setv vs), st3)
      | (.error e, st3) => (.error e, st3)
  | _ => (.error .runtime, st2)

/-- The set synthesizer `parseSet` (depth-controlled at its
definition). -/
def parseSet (g : Gen) (s : SchemaNode) (o : GenOptions) (st : RState) :
    GenRes :=
  depthControlled (parseSetBody g s) s o st

/-- The wrapped body of the map synthesizer: the entry count is the
caller-configured `mapEntriesLength` (default 1), not a schema-declared
bound. -/
def parseMapBody (g : Gen) (s : SchemaNode) (o2 : GenOptions)
    (st2 : RState) : GenRes :=
  match s with
  | .zmap keyType valueType =>
    let targetLength := o2.mapEntriesLength.getD 1
    match mapLoop g keyType valueType o2 targetLength
        (loopAttempts targetLength) [] st2 with
    | (.ok es, st3) => (.ok (.mapv es), st3)
    | (.error e, st3) => (.error e, st3)
  | _ => (.error .runtime, st2)

/-- The map synthesizer `parseMap` (depth-controlled at its
definition). -/
def parseMap (g : Gen) (s : SchemaNode) (o : GenOptions) (st : RState) :
    GenRes :=
  depthControlled (parseMapBody g s) s o st

/-- The optional/nullable synthesizer `parseOptional`: unwrap and
recurse (the produced value is never the missing variant). -/
def parseOptional (g : Gen) (inner : SchemaNode) (o : GenOptions)
    (st : RState) : GenRes :=
  g inner o st

/-- The lazy synthesizer `parseLazy` (depth-controlled at its
registration): resolve the getter and recurse. -/
def parseLazy (g : Gen) (s : SchemaNode) (o : GenOptions) (st : RState) :
    GenRes :=
  match s with
  | .zlazy inner => g inner o st
  | _ => (.error .runtime, st)

/-- The union synthesizer `parseUnion`: a uniformly selected alternative,
recursed into. -/
def parseUnion (g : Gen) (alts : List SchemaNode) (o : GenOptions)
    (st : RState) : GenRes :=
  match fakerArrayElement alts st.fk with
  | (.error _, fk1) => (.error .runtime, { st with fk := fk1 })
  | (.ok mocked, fk1) => g mocked o { st with fk := fk1 }

/-- The discriminated-union synthesizer `parseDiscriminatedUnion`: the
same uniform alternative selection as `parseUnion`. -/
def parseDiscriminatedUnion (g : Gen) (alts : List SchemaNode)
    (o : GenOptions) (st : RState) : GenRes :=
  match fakerArrayElement alts st.fk with
  | (.error _, fk1) => (.error .runtime, { st with fk := fk1 })
  | (.ok mocked, fk1) => g mocked o { st with fk := fk1 }

/-- The intersection synthesizer `parseZodIntersection`: both operands
synthesized independently and merged with `Object.assign`. -/
def parseZodIntersection (g : Gen) (left right : SchemaNode)
    (o : GenOptions) (st : RState) : GenRes :=
  match g left o st with
  | (.error e, st1) => (.error e, st1)
  | (.ok lv, st1) =>
    match g right o st1 with
    | (.error e, st2) => (.error e, st2)
    | (.ok rv, st2) =>
      match objectAssign lv rv with
      | .ok v => (.ok v, st2)
      | .error e => (.error e, st2)

/-- The element list of a generated array value (the `next ?? []` and
spread the tuple synthesizer applies to the rest segment). -/
def arrElems : Value → List Value
  | .arr ws => ws
  | _ => []

/-- The tuple synthesizer `parseZodTuple`: each positional item in order;
a declared rest element additionally produces a variable-length segment by
calling the array synthesizer directly (`ga`) on a fresh unconstrained
array node over the rest schema, appending its elements (`next ?? []`). -/
def parseZodTuple (g : Gen) (ga : SchemaNode → GenOptions → RState → GenRes)
    (items : List SchemaNode) (rest : Option SchemaNode) (o : GenOptions)
    (st : RState) : GenRes :=
  match genItems g o items st with
  | (.error e, st1) => (.error e, st1)
  | (.ok vs, st1) =>
    match rest with
    | none => (.ok (.arr vs), st1)
    | some r =>
      match ga (.zarray none none none r) o st1 with
      | (.error e, st2) => (.error e, st2)
      | (.ok next, st2) => (.ok (.arr (vs ++ arrElems next)), st2)

/-- The transform synthesizer `parseTransform`: synthesize the
pre-transform schema, then apply a transform-type effect (whose fault is a
runtime fault); any other effect returns the input unchanged. -/
def parseTransform (g : Gen) (schema : SchemaNode)
    (eff : Option (Value → Except Unit Value)) (o : GenOptions)
    (st : RState) : GenRes :=
  match g schema o st with
  | (.error e, st1) => (.error e, st1)
  | (.ok input, st1) =>
    match eff with
    | some f =>
      match f input with
      | .ok v => (.ok v, st1)
      | .error _ => (.error .runtime, st1)
    | none => (.ok input, st1)

/-- The function synthesizer `parseZodFunction`: an opaque zero-argument
stub (its body, which would synthesize the return schema when called, is
not invoked by the engine). -/
def parseZodFunction (st : RState) : GenRes := (.ok .funcV, st)

/-- The default synthesizer `parseZodDefault`: with even odds the declared
default value, else the inner schema. -/
def parseZodDefault (g : Gen) (defaultValue : Value) (innerType : SchemaNode)
    (o : GenOptions) (st : RState) : GenRes :=
  let (b, fk1) := fakerBoolean st.fk
  if b then (.ok defaultValue, { st with fk := fk1 })
  else g innerType o { st with fk := fk1 }

/-- The promise synthesizer `parseZodPromise`: an already-resolved wrapper
around the synthesized inner value. -/
def parseZodPromise (g : Gen) (inner : SchemaNode) (o : GenOptions)
    (st : RState) : GenRes :=
  match g inner o st with
  | (.ok v, st1) => (.ok (.promise v), st1)
  | (.error e, st1) => (.error e, st1)

/-- The branded synthesizer `parseBranded`: unwrap and recurse. -/
def parseBranded (g : Gen) (inner : SchemaNode) (o : GenOptions)
    (st : RState) : GenRes :=
  g inner o st

/-- Dispatch for a node whose tag is not a constructor of the model: the
nullary built-in workers ignore the node's structure and still apply; a
tag naming a structure-reading built-in dispatches into it and faults on
the malformed node; otherwise the backup-mock fallback, the strict
unknown-type error, or Absent. -/
def customDispatch (o : GenOptions) (tag : String) (s : SchemaNode)
    (st : RState) : GenRes :=
  if tag = "ZodNull" then (.ok .vnull, st)
  else if tag = "ZodVoid" ∨ tag = "ZodUndefined" ∨ tag = "ZodNaN" then
    (.ok .undef, st)
  else if tag = "ZodUuid" then parseUuid st
  else if workerMapKeys.contains tag then (.error .runtime, st)
  else
    match backupLookup o tag with
    | some m => runBackup m s st
    | none =>
      if o.throwOnUnknownType.getD false then (.error (.mock tag), st)
      else (.ok .undef, st)

/-! ## The engine entry point -/

/-- A pending call: `gen s` is a `generateMock(s, options)` call (with
defaulting, seeding, the `ZodUndefined` pre-check, dispatch and the catch);
`arrDirect s` is the direct `parseArray(s, options)` call the tuple
synthesizer makes, which has none of those. -/
inductive GTarget where
  | gen (s : SchemaNode)
  | arrDirect (s : SchemaNode)

/-- The fuel-indexed engine.  `run (n+1) (.gen s) o st` is one
`generateMock` call: apply option defaults, seed the options faker if a
seed is present, then under the entry-point catch: the `ZodUndefined`
backup pre-check, then dispatch on the type tag through the worker map
(depth guards exactly where the source wraps workers), recursing with one
fuel less.  Fuel exhaustion models non-termination, not an exception. -/
def run : Nat → GTarget → GenOptions → RState → GenRes
  | 0, _, _, st => (.error .fuel, st)
  | n + 1, .arrDirect s, o, st =>
    parseArray (fun s' o' st' => run n (.gen s') o' st') s o st
  | n + 1, .gen s, o, st =>
    let g : Gen := fun s' o' st' => run n (.gen s') o' st'
    let o1 := defaultDepths o
    let st1 := seedApply o1 st
    catchRuntime (
      match (if typeName s == "ZodUndefined" then
               backupLookup o1 "ZodUndefined" else none) with
      | some m => runBackup m s st1
      | none =>
        match s with
        | .zstring checks =>
          let (r, fk') := parseString checks o1 st1.fk
          (r.map .str, { st1 with fk := fk' })
        | .znumber checks =>
          let (r, fk') := parseNumber checks st1.fk
          (r.map .num, { st1 with fk := fk' })
        | .zbigint checks =>
          let (r, fk') := parseNumber checks st1.fk
          (r.map .num, { st1 with fk := fk' })
        | .zboolean =>
          let (b, fk') := fakerBoolean st1.fk
          (.ok (.bool b), { st1 with fk := fk' })
        | .zdate checks =>
          let (r, fk') := parseDate checks st1.fk
          (r, { st1 with fk := fk' })
        | .zobject _ => parseObject g s o1 st1
        | .zrecord _ _ =>
          depthControlled (fun o2 st2 => parseRecord g s o2 st2) s o1 st1
        | .zarray _ _ _ _ => parseArray g s o1 st1
        | .zset _ _ _ => parseSet g s o1 st1
        | .zmap _ _ => parseMap g s o1 st1
        | .zenum values =>
          let (r, fk') := parseEnum values st1.fk
          (r, { st1 with fk := fk' })
        | .znativeEnum values =>
          let (r, fk') := parseNativeEnum values st1.fk
          (r, { st1 with fk := fk' })
        | .zliteral v => (.ok v, st1)
        | .zunion alts => parseUnion g alts o1 st1
        | .zdiscUnion alts => parseDiscriminatedUnion g alts o1 st1
        | .zintersection left right => parseZodIntersection g left right o1 st1
        | .ztuple items rest =>
          parseZodTuple g (fun s' o' st' => run n (.arrDirect s') o' st')
            items rest o1 st1
        | .zoptional inner => parseOptional g inner o1 st1
        | .znullable inner => parseOptional g inner o1 st1
        | .zdefault dv inner => parseZodDefault g dv inner o1 st1
        | .zbranded inner => parseBranded g inner o1 st1
        | .zeffects schema eff => parseTransform g schema eff o1 st1
        | .zfunction _ => parseZodFunction st1
        | .zpromise inner => parseZodPromise g inner o1 st1
        | .zlazy _ =>
          depthControlled (fun o2 st2 => parseLazy g s o2 st2) s o1 st1
        | .zvoid => (.ok .undef, st1)
        | .znull => (.ok .vnull, st1)
        | .zundefined => (.ok .undef, st1)
        | .znan => (.ok .undef, st1)
        | .zuuid => parseUuid st1
        | .custom tag => customDispatch o1 tag s st1)

/-- The engine entry point `generateMock`, at a given fuel. -/
def generateMock (fuel : Nat) (s : SchemaNode) (o : GenOptions)
    (st : RState) : GenRes :=
  run fuel (.gen s) o st

/-- The recursive callback handed to the synthesizers at fuel `n`. -/
def genAt (n : Nat) : Gen := fun s o st => run n (.gen s) o st

/-- The direct array-synthesizer callback handed to the tuple synthesizer
at fuel `n`. -/
def arrAt (n : Nat) : SchemaNode → GenOptions → RState → GenRes :=
  fun s o st => run n (.arrDirect s) o st

end ZodFactory

namespace ZodFactory

/-! ## Basic lemmas about the entry point -/

/-- The catch at the entry point never lets a runtime fault through. -/
theorem catchRuntime_ne_runtime (r : GenRes) :
    (catchRuntime r).1 ≠ .error .runtime := by
  rcases r with ⟨e, st⟩
  cases e with
  | ok v => simp [catchRuntime]
  | error err => cases err <;> simp [catchRuntime]

/-- Option defaulting commutes with the depth bump. -/
theorem bumpDepth_defaultDepths (o : GenOptions) :
    bumpDepth (defaultDepths o) = bumpDepth o := by
  cases o
  simp [bumpDepth, defaultDepths]

/-- Option defaulting keeps the backup-mock table. -/
theorem backupLookup_defaultDepths (o : GenOptions) (tag : String) :
    backupLookup (defaultDepths o) tag = backupLookup o tag := rfl

/-- A successful bounded integer draw lies inside the requested bounds. -/
theorem fakerInt_bounds (lo hi : Int) (st st' : FakerState) (v : Int)
    (h : fakerInt (some lo) (some hi) st = (.ok v, st')) :
    lo ≤ v ∧ v ≤ hi := by
  by_cases hlh : lo ≤ hi
  · have hne : hi - lo + 1 ≠ 0 := by omega
    have hpos : (0 : Int) < hi - lo + 1 := by omega
    have h1 : (0 : Int) ≤ (frand st : Int) % (hi - lo + 1) :=
      Int.emod_nonneg _ hne
    have h2 : (frand st : Int) % (hi - lo + 1) < hi - lo + 1 :=
      Int.emod_lt_of_pos _ hpos
    simp only [fakerInt, Option.getD_some] at h
    rw [if_neg (by omega)] at h
    have hv : v = lo + (frand st : Int) % (hi - lo + 1) := by
      have := congrArg Prod.fst h
      simp at this
      omega
    omega
  · simp only [fakerInt, Option.getD_some] at h
    rw [if_pos (by omega)] at h
    simp at h

end ZodFactory

namespace ZodFactory

/-- A convenient initial state for concrete witnesses. -/
def initState : RState := ⟨⟨0, 0⟩, ⟨0, 0⟩⟩

/-- C9 (counterexample): the claim says a NaN-typed node yields the
not-a-number sentinel, but the registered worker for `ZodNaN` returns
`undefined`: at a concrete input the engine yields Absent, which is not
the NaN sentinel. -/
theorem c9_nan_counterexample :
    (generateMock 1 .znan {} initState).1 = .ok .undef ∧
      Value.undef ≠ Value.nan := by
  constructor
  · rfl
  · intro h
    cases h

/-- C9 (amended): void-typed, null-typed, undefined-typed and NaN-typed
nodes deterministically yield Absent, the null value, Absent (when no
`ZodUndefined` backup mock pre-empts it) and Absent respectively; the
`ZodNaN` worker returns Absent, not the NaN sentinel. -/
theorem c9_primitive_sentinels (n : Nat) (o : GenOptions) (st : RState)
    (h : backupLookup o "ZodUndefined" = none) :
    (generateMock (n + 1) .zvoid o st).1 = .ok .undef ∧
    (generateMock (n + 1) .znull o st).1 = .ok .vnull ∧
    (generateMock (n + 1) .zundefined o st).1 = .ok .undef ∧
    (generateMock (n + 1) .znan o st).1 = .ok .undef := by
  have hd : backupLookup (defaultDepths o) "ZodUndefined" = none := by
    rw [backupLookup_defaultDepths]; exact h
  refine ⟨?_, ?_, ?_, ?_⟩ <;>
    simp [generateMock, run, typeName, hd, catchRuntime]

/-- C9 (witness): the amended statement evaluated with default options. -/
theorem c9_primitive_sentinels_witness :
    (generateMock 1 .zvoid {} initState).1 = .ok .undef ∧
    (generateMock 1 .znull {} initState).1 = .ok .vnull ∧
    (generateMock 1 .zundefined {} initState).1 = .ok .undef ∧
    (generateMock 1 .znan {} initState).1 = .ok .undef :=
  c9_primitive_sentinels 0 {} initState rfl

end ZodFactory

namespace ZodFactory

/-- A tag outside the built-in registry is distinct from every registry
key. -/
theorem not_builtin_ne (tag : String)
    (hb : workerMapKeys.contains tag = false) :
    tag ≠ "ZodNull" ∧ tag ≠ "ZodVoid" ∧ tag ≠ "ZodUndefined" ∧
      tag ≠ "ZodNaN" ∧ tag ≠ "ZodUuid" := by
  refine ⟨?_, ?_, ?_, ?_, ?_⟩ <;>
    · intro h
      subst h
      exact absurd hb (by decide)

end ZodFactory

namespace ZodFactory

/-- C5: for a type tag with no built-in synthesizer and no backup-mock
override, `generateMock` raises the `ZodMockError` carrying that tag when
`throwOnUnknownType` is true, and yields Absent when the flag is unset or
false. -/
theorem c5_unknown_type (n : Nat) (tag : String) (o : GenOptions)
    (st : RState)
    (hb : workerMapKeys.contains tag = false)
    (hm : backupLookup o tag = none) :
    (o.throwOnUnknownType = some true →
      generateMock (n + 1) (.custom tag) o st =
        (.error (.mock tag), seedApply (defaultDepths o) st)) ∧
    (o.throwOnUnknownType.getD false = false →
      (generateMock (n + 1) (.custom tag) o st).1 = .ok .undef) := by
  obtain ⟨h1, h2, h3, h4, h5⟩ := not_builtin_ne tag hb
  have hpre : (typeName (.custom tag) == "ZodUndefined") = false := by
    simp [typeName]
    exact h3
  have hmd : backupLookup (defaultDepths o) tag = none := by
    rw [backupLookup_defaultDepths]
    exact hm
  have hnm : tag ∉ workerMapKeys := by simpa using hb
  simp only [backupLookup] at hm
  constructor
  · intro ht
    simp [generateMock, run, hpre, customDispatch, h1, h2, h3, h4, h5, hnm,
      backupLookup, hm, catchRuntime, defaultDepths, ht]
  · intro ht
    simp [generateMock, run, hpre, customDispatch, h1, h2, h3, h4, h5, hnm,
      backupLookup, hm, catchRuntime, defaultDepths, ht]

/-- C5 (witness): a `ZodAny` node in strict mode raises the error naming
the tag, and without the flag yields Absent. -/
theorem c5_unknown_type_witness :
    ((some true : Option Bool) = some true →
      generateMock 1 (.custom "ZodAny") { throwOnUnknownType := some true }
          initState =
        (.error (.mock "ZodAny"),
          seedApply (defaultDepths { throwOnUnknownType := some true })
            initState)) ∧
    ((some true : Option Bool).getD false = false →
      (generateMock 1 (.custom "ZodAny") { throwOnUnknownType := some true }
          initState).1 = .ok .undef) :=
  c5_unknown_type 0 "ZodAny" { throwOnUnknownType := some true } initState
    (by decide) rfl

end ZodFactory

namespace ZodFactory

/-- C4: a date node whose extracted constraints carry both a minimum A and
a maximum B yields a date inside the inclusive interval when A is at most
B, and Absent (the unsatisfiable-range soft failure) when A exceeds B. -/
theorem c4_date_range (n : Nat) (o : GenOptions) (st : RState)
    (checks : List DateCheck) (A B : Int)
    (h : foldDateChecks checks = (some A, some B)) :
    (A ≤ B → ∃ t, (generateMock (n + 1) (.zdate checks) o st).1 =
      .ok (.date t) ∧ A ≤ t ∧ t ≤ B) ∧
    (B < A → (generateMock (n + 1) (.zdate checks) o st).1 = .ok .undef) := by
  constructor
  · intro hAB
    have hne : B - A + 1 ≠ 0 := by omega
    have hpos : (0 : Int) < B - A + 1 := by omega
    have h1 : (0 : Int) ≤
        (frand (seedApply (defaultDepths o) st).fk : Int) % (B - A + 1) :=
      Int.emod_nonneg _ hne
    have h2 : (frand (seedApply (defaultDepths o) st).fk : Int) % (B - A + 1)
        < B - A + 1 := Int.emod_lt_of_pos _ hpos
    refine ⟨A + (frand (seedApply (defaultDepths o) st).fk : Int) % (B - A + 1),
      ?_, by omega, by omega⟩
    simp [generateMock, run, typeName, parseDate, h, catchRuntime,
      fakerDateBetween, if_neg (by omega : ¬ B < A)]
  · intro hBA
    simp [generateMock, run, typeName, parseDate, h, catchRuntime,
      fakerDateBetween, if_pos hBA]

/-- C4 (witness): a concrete range and a concrete inverted range. -/
theorem c4_date_range_witness :
    ((0 : Int) ≤ 10 → ∃ t,
      (generateMock 1 (.zdate [.min (some 0), .max (some 10)]) {}
          initState).1 = .ok (.date t) ∧ 0 ≤ t ∧ t ≤ 10) ∧
    ((10 : Int) < 0 →
      (generateMock 1 (.zdate [.min (some 0), .max (some 10)]) {}
          initState).1 = .ok .undef) :=
  c4_date_range 0 {} initState [.min (some 0), .max (some 10)] 0 10 rfl

end ZodFactory

namespace ZodFactory

/-- C6: no runtime fault ever escapes a `generateMock` call, at any
nesting level — the entry-point catch downgrades it to Absent — and a
fault raised by a caller-supplied synthesizer is likewise downgraded to
Absent at the invoking entry point (only the explicit unknown-type
`ZodMockError` propagates, as the separate unknown-type theorem shows). -/
theorem c6_error_containment :
    (∀ (fuel : Nat) (s : SchemaNode) (o : GenOptions) (st : RState),
      (generateMock fuel s o st).1 ≠ .error .runtime) ∧
    (∀ (n : Nat) (tag : String) (o : GenOptions) (st : RState)
        (m : BackupMock),
      workerMapKeys.contains tag = false →
      backupLookup o tag = some m →
      m (.custom tag) = .error () →
      generateMock (n + 1) (.custom tag) o st =
        (.ok .undef, seedApply (defaultDepths o) st)) := by
  constructor
  · intro fuel s o st
    match fuel with
    | 0 =>
      simp [generateMock, run]
    | n + 1 =>
      exact catchRuntime_ne_runtime _
  · intro n tag o st m hb hm hf
    obtain ⟨h1, h2, h3, h4, h5⟩ := not_builtin_ne tag hb
    have hpre : (typeName (.custom tag) == "ZodUndefined") = false := by
      simp [typeName]
      exact h3
    have hnm : tag ∉ workerMapKeys := by simpa using hb
    simp only [backupLookup] at hm
    simp [generateMock, run, hpre, customDispatch, h1, h2, h3, h4, h5, hnm,
      backupLookup, hm, runBackup, hf, catchRuntime, defaultDepths]

/-- C6 (witness): a faulting caller-supplied synthesizer for an unknown
tag is downgraded to Absent at the entry point. -/
theorem c6_error_containment_witness :
    generateMock 1 (.custom "ZodAny")
        { backupMocks := some (fun t =>
            if t == "ZodAny" then some (fun _ => .error ()) else none) }
        initState =
      (.ok .undef,
        seedApply (defaultDepths
          { backupMocks := some (fun t =>
              if t == "ZodAny" then some (fun _ => .error ()) else none) })
          initState) :=
  c6_error_containment.2 0 "ZodAny"
    { backupMocks := some (fun t =>
        if t == "ZodAny" then some (fun _ => .error ()) else none) }
    initState (fun _ => .error ()) (by decide) rfl rfl

end ZodFactory

namespace ZodFactory

/-- Applying the option defaults twice changes nothing. -/
theorem defaultDepths_idem (o : GenOptions) :
    defaultDepths (defaultDepths o) = defaultDepths o := by
  cases o
  simp [defaultDepths]

/-- The guard test is insensitive to option defaulting. -/
theorem depthReached_defaultDepths (o : GenOptions) :
    depthReached (defaultDepths o) = depthReached o := by
  cases o
  simp [depthReached, defaultDepths]

/-- Seeding is insensitive to option defaulting. -/
theorem seedApply_defaultDepths (o : GenOptions) (st : RState) :
    seedApply (defaultDepths o) st = seedApply o st := rfl

/-- C2: each depth-guarded synthesizer (object, array, set, map, record,
lazy), invoked through `generateMock`, returns its type-appropriate empty
default (empty object, empty array, empty set, empty map; Absent for
record and lazy) without recursing once the current depth has reached the
maximum depth (defaults 0 and 10), and otherwise invokes the wrapped
synthesizer body with the current depth incremented by one. -/
theorem c2_depth_guard (n : Nat) (o : GenOptions) (st : RState)
    (fields : List (String × SchemaNode))
    (mnl mxl exl : Option Nat) (el : SchemaNode)
    (mns mxs : Option Nat) (sv kt vt ks rv inner : SchemaNode) :
    (generateMock (n + 1) (.zobject fields) o st =
      if depthReached o then (.ok (.obj []), seedApply o st)
      else catchRuntime (parseObjectBody (genAt n) (.zobject fields)
        (bumpDepth o) (seedApply o st))) ∧
    (generateMock (n + 1) (.zarray mnl mxl exl el) o st =
      if depthReached o then (.ok (.arr []), seedApply o st)
      else catchRuntime (parseArrayBody (genAt n) (.zarray mnl mxl exl el)
        (bumpDepth o) (seedApply o st))) ∧
    (generateMock (n + 1) (.zset mns mxs sv) o st =
      if depthReached o then (.ok (.setv []), seedApply o st)
      else catchRuntime (parseSetBody (genAt n) (.zset mns mxs sv)
        (bumpDepth o) (seedApply o st))) ∧
    (generateMock (n + 1) (.zmap kt vt) o st =
      if depthReached o then (.ok (.mapv []), seedApply o st)
      else catchRuntime (parseMapBody (genAt n) (.zmap kt vt)
        (bumpDepth o) (seedApply o st))) ∧
    (generateMock (n + 1) (.zrecord ks rv) o st =
      if depthReached o then (.ok .undef, seedApply o st)
      else catchRuntime (parseRecord (genAt n) (.zrecord ks rv)
        (bumpDepth o) (seedApply o st))) ∧
    (generateMock (n + 1) (.zlazy inner) o st =
      if depthReached o then (.ok .undef, seedApply o st)
      else catchRuntime (parseLazy (genAt n) (.zlazy inner)
        (bumpDepth o) (seedApply o st))) := by
  refine ⟨?_, ?_, ?_, ?_, ?_, ?_⟩ <;>
  · by_cases hd : depthReached o
    · simp [generateMock, run, typeName, parseObject, parseArray, parseSet,
        parseMap, depthControlled, depthDefault, depthReached_defaultDepths,
        defaultDepths_idem, seedApply_defaultDepths, hd, catchRuntime]
    · simp only [generateMock, run, typeName, parseObject, parseArray,
        parseSet, parseMap, depthControlled, depthDefault,
        depthReached_defaultDepths, defaultDepths_idem,
        seedApply_defaultDepths, bumpDepth_defaultDepths, hd, if_false,
        Bool.false_eq_true, if_neg, beq_self_eq_true]
      rfl

end ZodFactory

namespace ZodFactory

/-- Lengths of the modelled primitive word generator. -/
theorem wordOfLength_length (len : Nat) (st : FakerState) :
    (wordOfLength len st).length = len := by
  simp [wordOfLength]

/-- Truncation yields the minimum of the cut and the original length. -/
theorem strSlice_length (s : String) (n : Nat) :
    (strSlice s n).length = min n s.length := by
  cases s with
  | mk l => simp [strSlice, List.length_take]

/-- A positive padding request yields exactly that many characters. -/
theorem fakerAlpha_length_pos (delta : Int) (st : FakerState)
    (h : 0 < delta) :
    (fakerAlpha delta st).1.length = delta.toNat := by
  simp [fakerAlpha, wordOfLength_length, if_neg (by omega : ¬ delta ≤ 0)]

/-- A bounded integer draw with ordered bounds succeeds. -/
theorem fakerInt_ok_of_le (lo hi : Int) (st : FakerState) (h : lo ≤ hi) :
    fakerInt (some lo) (some hi) st =
      (.ok (lo + (frand st : Int) % (hi - lo + 1)), fnext st) := by
  simp [fakerInt, if_neg (by omega : ¬ lo > hi)]

/-- A bounded integer draw with inverted bounds faults. -/
theorem fakerInt_error_of_gt (lo hi : Int) (st : FakerState) (h : hi < lo) :
    fakerInt (some lo) (some hi) st = (.error (), st) := by
  simp [fakerInt, if_pos (by omega : lo > hi)]

/-- Whether the string synthesizer would return a caller-supplied
`stringMap` generator's output verbatim for the current field name. -/
def stringMapHit (o : GenOptions) : Bool :=
  match o.keyName, o.stringMap with
  | some k, some m => if k ≠ "" then (m k).isSome else false
  | _, _ => false

/-- Without a regex check and without a `stringMap` hit, `parseString` is
its generic core. -/
theorem parseString_eq_core (checks : List StrCheck) (o : GenOptions)
    (fk : FakerState)
    (hreg : checks.find? (fun c => c.kindOf == "regex") = none)
    (hmap : stringMapHit o = false) :
    parseString checks o fk = parseStringCore checks o fk := by
  unfold parseString
  rw [hreg]
  unfold stringMapHit at hmap
  rcases hk : o.keyName with _ | k <;> rcases hm : o.stringMap with _ | m <;>
      rw [hk, hm] at hmap <;> simp only [hk, hm]
  simp only [] at hmap
  by_cases hke : k = ""
  · simp [hke]
  · rw [if_pos hke] at hmap
    rcases hmk : m k with _ | sv
    · simp [hke, hmk]
    · rw [hmk] at hmap
      simp at hmap

/-- The padded content is at least the declared minimum long whenever the
target length is. -/
theorem padToMin_ge_min (a : Nat) (m2 : Option Nat) (t : Nat)
    (val0 : String) (fk2 : FakerState) (h : a ≤ t) :
    a ≤ ((padToMin (some a, m2) t val0 fk2).1).length := by
  by_cases hlen : val0.length < a
  · rcases halpha : fakerAlpha ((t : Int) - (val0.length : Int)) fk2
      with ⟨pad, fkp⟩
    have hd : (0 : Int) < (t : Int) - (val0.length : Int) := by omega
    have hpl : pad.length = ((t : Int) - (val0.length : Int)).toNat := by
      have := fakerAlpha_length_pos _ fk2 hd
      rw [halpha] at this
      exact this
    simp only [padToMin, if_pos hlen, halpha, String.length_append]
    omega
  · simp only [padToMin, if_neg hlen]
    omega

/-- The generic string core always truncates to the declared maximum last,
and when the declared bounds are ordered the pre-truncation content is at
least the minimum long. -/
theorem parseStringCore_shape (checks : List StrCheck) (o : GenOptions)
    (fk fk' : FakerState) (a b : Nat) (sres : String)
    (hf : foldStringChecks checks = (some a, some b))
    (hok : parseStringCore checks o fk = (.ok sres, fk')) :
    ∃ val1 : String, sres = strSlice val1 b ∧ (a ≤ b → a ≤ val1.length) := by
  by_cases hab : a ≤ b
  · have hsort : sortStringOptions (some a, some b) = (some a, some b) := by
      simp only [sortStringOptions]
      rw [if_neg (by omega)]
    simp only [parseStringCore, hf, hsort, natBound] at hok
    rw [fakerInt_ok_of_le _ _ _ (by exact_mod_cast hab)] at hok
    simp only [] at hok
    set t : Int := (a : Int) + (frand fk : Int) % ((b : Int) - a + 1) with ht
    have hbounds : (a : Int) ≤ t ∧ t ≤ b := by
      have hne : (b : Int) - a + 1 ≠ 0 := by omega
      have hpos : (0 : Int) < (b : Int) - a + 1 := by omega
      have h1 := Int.emod_nonneg (frand fk : Int) hne
      have h2 := Int.emod_lt_of_pos (frand fk : Int) hpos
      omega
    rcases hgen : pickStringGenerator checks o t.toNat (fnext fk)
      with ⟨val0, fk2⟩
    rw [hgen] at hok
    simp only [] at hok
    rcases hpad : padToMin (some a, some b) t.toNat val0 fk2 with ⟨val1, fk3⟩
    rw [hpad] at hok
    simp only [] at hok
    have hs : trimToMax (some a, some b) val1 = sres := by
      have := congrArg Prod.fst hok
      simpa using this
    refine ⟨val1, ?_, fun _ => ?_⟩
    · rw [← hs]
      simp [trimToMax]
    · have := padToMin_ge_min a (some b) t.toNat val0 fk2 (by omega)
      rw [hpad] at this
      exact this
  · have hba : b < a := by omega
    by_cases hb0 : b = 0
    · subst hb0
      have hsort : sortStringOptions (some a, some 0) = (some a, some 0) := by
        simp only [sortStringOptions]
        rw [if_neg (by omega)]
      simp only [parseStringCore, hf, hsort, natBound] at hok
      rw [fakerInt_error_of_gt _ _ _ (by exact_mod_cast hba)] at hok
      simp at hok
    · have hsort : sortStringOptions (some a, some b) = (some b, some a) := by
        simp only [sortStringOptions]
        rw [if_pos (by omega)]
      simp only [parseStringCore, hf, hsort, natBound] at hok
      rw [fakerInt_ok_of_le _ _ _ (by exact_mod_cast le_of_lt hba)] at hok
      simp only [] at hok
      set t : Int := (b : Int) + (frand fk : Int) % ((a : Int) - b + 1) with ht
      rcases hgen : pickStringGenerator checks o t.toNat (fnext fk)
        with ⟨val0, fk2⟩
      rw [hgen] at hok
      simp only [] at hok
      rcases hpad : padToMin (some a, some b) t.toNat val0 fk2
        with ⟨val1, fk3⟩
      rw [hpad] at hok
      simp only [] at hok
      have hs : trimToMax (some a, some b) val1 = sres := by
        have := congrArg Prod.fst hok
        simpa using this
      refine ⟨val1, ?_, fun hc => absurd hc (by omega)⟩
      rw [← hs]
      simp [trimToMax]

end ZodFactory

namespace ZodFactory

/-- C3 (amended): for a string node carrying a declared minimum `a` and
maximum `b`, outside the regex-check and `stringMap` shortcut paths (which
return content verbatim), every generated string satisfies the bounds:
both bounds when `a ≤ b`, and the maximum alone when `a > b` (max wins via
truncation applied last; when `a > b = 0` the target-length draw faults
and generation yields Absent instead of a string, so no string escapes the
bound). -/
theorem c3_string_length (n : Nat) (o : GenOptions) (st : RState)
    (checks : List StrCheck) (a b : Nat) (sres : String) (st' : RState)
    (hreg : checks.find? (fun c => c.kindOf == "regex") = none)
    (hmap : stringMapHit o = false)
    (hf : foldStringChecks checks = (some a, some b))
    (hok : generateMock (n + 1) (.zstring checks) o st =
      (.ok (.str sres), st')) :
    (a ≤ b → a ≤ sres.length ∧ sres.length ≤ b) ∧
    (b < a → sres.length ≤ b) := by
  have hmap2 : stringMapHit (defaultDepths o) = false := hmap
  have hpre : (("ZodString" : String) == "ZodUndefined") = false := by decide
  rcases hcore : parseStringCore checks (defaultDepths o)
      (seedApply (defaultDepths o) st).fk with ⟨r, fkx⟩
  have hps := parseString_eq_core checks (defaultDepths o)
      (seedApply (defaultDepths o) st).fk hreg hmap2
  rw [hcore] at hps
  simp only [generateMock, run, typeName, hpre, Bool.false_eq_true,
    if_false, hps] at hok
  cases r with
  | error e =>
    cases e <;> simp [catchRuntime, Except.map] at hok
  | ok s0 =>
    simp only [catchRuntime, Except.map] at hok
    have hs : s0 = sres := by
      have := congrArg Prod.fst hok
      simp at this
      exact this
    subst hs
    obtain ⟨val1, hval, hmin⟩ :=
      parseStringCore_shape checks (defaultDepths o) _ _ a b s0 hf hcore
    subst hval
    rw [strSlice_length]
    constructor
    · intro hab
      have := hmin hab
      omega
    · intro hba
      omega

end ZodFactory

namespace ZodFactory

/-- C3 (witness): the amended bounds evaluated at a concrete string node
with minimum 3 and maximum 5. -/
theorem c3_string_length_witness :
    ((3 : Nat) ≤ 5 → 3 ≤ "efgh".length ∧ "efgh".length ≤ 5) ∧
    ((5 : Nat) < 3 → "efgh".length ≤ 5) :=
  c3_string_length 0 {} initState [.min 3, .max 5] 3 5 "efgh"
    ⟨⟨0, 2⟩, ⟨0, 0⟩⟩ rfl rfl rfl (by rfl)

/-- C3 (counterexample): the claim quantifies over every string node, but
a caller-supplied `stringMap` generator for the current field name is
returned verbatim, bypassing the length post-processing: with declared
minimum 1 and maximum 2 (an ordered pair), the generated string has
length 13. -/
theorem c3_string_length_counterexample :
    foldStringChecks [.min 1, .max 2] = (some 1, some 2) ∧ (1 : Nat) ≤ 2 ∧
    (generateMock 1 (.zstring [.min 1, .max 2])
        { keyName := some "locked",
          stringMap := some (fun k =>
            if k == "locked" then some "toolongstring" else none) }
        initState).1 = .ok (.str "toolongstring") ∧
    ¬ ("toolongstring".length ≤ 2) := by
  refine ⟨rfl, by omega, rfl, by decide⟩

end ZodFactory

namespace ZodFactory

/-- Spread-insertion grows a record by at most one entry. -/
theorem insertOverwrite_length (l : List (String × Value)) (k : String)
    (v : Value) :
    (insertOverwrite l k v).length ≤ l.length + 1 := by
  unfold insertOverwrite
  split
  · simp
  · simp

/-- A map insertion grows the entry list by at most one, and by exactly
one when no SameValueZero-equal key is present. -/
theorem mapSet_length (l : List (Value × Value)) (k v : Value) :
    (mapSet l k v).length ≤ l.length + 1 := by
  unfold mapSet
  split
  · simp
  · simp

/-- The map sampling loop, when it terminates successfully, stops at
exactly the target entry count. -/
theorem mapLoop_length (g : Gen) (kt vt : SchemaNode) (o : GenOptions)
    (target : Nat) :
    ∀ (attempts : Nat) (acc : List (Value × Value)) (st : RState)
      (es : List (Value × Value)) (st' : RState),
    acc.length ≤ target →
    mapLoop g kt vt o target attempts acc st = (.ok es, st') →
    es.length = target := by
  intro attempts
  induction attempts with
  | zero =>
    intro acc st es st' hle h
    rw [mapLoop] at h
    by_cases ht : target ≤ acc.length
    · rw [if_pos ht] at h
      have : acc = es := by
        have := congrArg Prod.fst h
        simpa using this
      subst this
      omega
    · rw [if_neg ht] at h
      simp at h
  | succ a ih =>
    intro acc st es st' hle h
    rw [mapLoop] at h
    by_cases ht : target ≤ acc.length
    · rw [if_pos ht] at h
      have : acc = es := by
        have := congrArg Prod.fst h
        simpa using this
      subst this
      omega
    · rw [if_neg ht] at h
      rcases hk : g kt o st with ⟨rk, st1⟩
      rw [hk] at h
      cases rk with
      | error e => simp at h
      | ok kv =>
        simp only [] at h
        rcases hv : g vt o st1 with ⟨rv, st2⟩
        rw [hv] at h
        cases rv with
        | error e => simp at h
        | ok vv =>
          simp only [] at h
          refine ih (mapSet acc kv vv) st2 es st' ?_ h
          have := mapSet_length acc kv vv
          omega

/-- The record loop emits at most one entry per iteration (a colliding
key overwrites instead of adding). -/
theorem genRecordLoop_length_le (g : Gen) (ks vs : SchemaNode)
    (o : GenOptions) :
    ∀ (k : Nat) (acc : List (String × Value)) (st : RState)
      (res : List (String × Value)) (st' : RState),
    genRecordLoop g ks vs o k acc st = (.ok res, st') →
    res.length ≤ acc.length + k := by
  intro k
  induction k with
  | zero =>
    intro acc st res st' h
    rw [genRecordLoop] at h
    have : acc = res := by
      have := congrArg Prod.fst h
      simpa using this
    subst this
    omega
  | succ m ih =>
    intro acc st res st' h
    rw [genRecordLoop] at h
    rcases hk : g ks o st with ⟨rk, st1⟩
    rw [hk] at h
    cases rk with
    | error e => simp at h
    | ok kv =>
      simp only [] at h
      rcases hv : g vs o st1 with ⟨rv, st2⟩
      rw [hv] at h
      cases rv with
      | error e => simp at h
      | ok vv =>
        simp only [] at h
        have := ih (insertOverwrite acc (keyToString kv) vv) st2 res st' h
        have h2 := insertOverwrite_length acc (keyToString kv) vv
        omega

end ZodFactory

namespace ZodFactory

/-- Entry-point characterization for map nodes (shared helper). -/
theorem generateMock_zmap_eq (n : Nat) (o : GenOptions) (st : RState)
    (kt vt : SchemaNode) :
    generateMock (n + 1) (.zmap kt vt) o st =
      if depthReached o then (.ok (.mapv []), seedApply o st)
      else catchRuntime (parseMapBody (genAt n) (.zmap kt vt)
        (bumpDepth o) (seedApply o st)) := by
  by_cases hdd : depthReached o
  · simp [generateMock, run, typeName, parseMap, depthControlled,
      depthDefault, depthReached_defaultDepths, defaultDepths_idem,
      seedApply_defaultDepths, hdd, catchRuntime]
  · simp only [generateMock, run, typeName, parseMap, depthControlled,
      depthDefault, depthReached_defaultDepths, defaultDepths_idem,
      seedApply_defaultDepths, bumpDepth_defaultDepths, hdd, if_false,
      Bool.false_eq_true, if_neg, beq_self_eq_true]
    rfl

/-- Entry-point characterization for record nodes (shared helper). -/
theorem generateMock_zrecord_eq (n : Nat) (o : GenOptions) (st : RState)
    (ks rv : SchemaNode) :
    generateMock (n + 1) (.zrecord ks rv) o st =
      if depthReached o then (.ok .undef, seedApply o st)
      else catchRuntime (parseRecord (genAt n) (.zrecord ks rv)
        (bumpDepth o) (seedApply o st)) := by
  by_cases hdd : depthReached o
  · simp [generateMock, run, typeName, depthControlled, depthDefault,
      depthReached_defaultDepths, defaultDepths_idem,
      seedApply_defaultDepths, hdd, catchRuntime]
  · simp only [generateMock, run, typeName, depthControlled, depthDefault,
      depthReached_defaultDepths, defaultDepths_idem,
      seedApply_defaultDepths, bumpDepth_defaultDepths, hdd, if_false,
      Bool.false_eq_true, if_neg, beq_self_eq_true]
    rfl

/-- A successful map synthesis has exactly the configured entry count. -/
theorem parseMapBody_count (g : Gen) (kt vt : SchemaNode) (o2 : GenOptions)
    (st2 : RState) (es : List (Value × Value)) (st3 : RState)
    (h : parseMapBody g (.zmap kt vt) o2 st2 = (.ok (.mapv es), st3)) :
    es.length = o2.mapEntriesLength.getD 1 := by
  unfold parseMapBody at h
  simp only [] at h
  rcases hml : mapLoop g kt vt o2 (o2.mapEntriesLength.getD 1)
      (loopAttempts (o2.mapEntriesLength.getD 1)) [] st2 with ⟨r, stx⟩
  rw [hml] at h
  cases r with
  | error e => simp at h
  | ok es' =>
    simp only [] at h
    have hes : es' = es := by
      have := congrArg Prod.fst h
      simpa using this
    subst hes
    exact mapLoop_length g kt vt o2 _ _ [] st2 es' stx (by simp) hml

/-- A successful record synthesis has at most the configured key count
(collisions overwrite). -/
theorem parseRecord_count (g : Gen) (ks rv : SchemaNode) (o2 : GenOptions)
    (st2 : RState) (fs : List (String × Value)) (st3 : RState)
    (h : parseRecord g (.zrecord ks rv) o2 st2 = (.ok (.obj fs), st3)) :
    fs.length ≤ (match o2.recordKeysLength with
      | some v => if v = 0 then 1 else v
      | none => 1) := by
  unfold parseRecord at h
  simp only [] at h
  rcases hrl : genRecordLoop g ks rv o2
      (match o2.recordKeysLength with
        | some v => if v = 0 then 1 else v
        | none => 1) [] st2 with ⟨r, stx⟩
  rw [hrl] at h
  cases r with
  | error e => simp at h
  | ok fs' =>
    simp only [] at h
    have hes : fs' = fs := by
      have := congrArg Prod.fst h
      simpa using this
    subst hes
    have := genRecordLoop_length_le g ks rv o2 _ [] st2 fs' stx hrl
    simpa using this

/-- C7 (amended): below the depth ceiling, a generated map has exactly
`mapEntriesLength` (default 1) entries, while a generated record has at
most `recordKeysLength` (default 1, a falsy 0 also meaning 1) entries:
record keys that collide overwrite earlier entries, so the count can fall
short of the target. -/
theorem c7_entry_counts (n : Nat) (o : GenOptions) (st : RState)
    (kt vt ks rv : SchemaNode) (hd : depthReached o = false) :
    (∀ es st', generateMock (n + 1) (.zmap kt vt) o st =
        (.ok (.mapv es), st') → es.length = o.mapEntriesLength.getD 1) ∧
    (∀ fs st', generateMock (n + 1) (.zrecord ks rv) o st =
        (.ok (.obj fs), st') →
      fs.length ≤ (match o.recordKeysLength with
        | some v => if v = 0 then 1 else v
        | none => 1)) := by
  constructor
  · intro es st' hok
    rw [generateMock_zmap_eq, hd] at hok
    simp only [Bool.false_eq_true, if_false] at hok
    rcases hb : parseMapBody (genAt n) (.zmap kt vt) (bumpDepth o)
        (seedApply o st) with ⟨r, st2⟩
    rw [hb] at hok
    cases r with
    | error e =>
      cases e <;> simp [catchRuntime] at hok
    | ok v =>
      simp only [catchRuntime] at hok
      have hv : v = .mapv es := by
        have := congrArg Prod.fst hok
        simpa using this
      subst hv
      exact parseMapBody_count (genAt n) kt vt (bumpDepth o)
        (seedApply o st) es st2 hb
  · intro fs st' hok
    rw [generateMock_zrecord_eq, hd] at hok
    simp only [Bool.false_eq_true, if_false] at hok
    rcases hb : parseRecord (genAt n) (.zrecord ks rv) (bumpDepth o)
        (seedApply o st) with ⟨r, st2⟩
    rw [hb] at hok
    cases r with
    | error e =>
      cases e <;> simp [catchRuntime] at hok
    | ok v =>
      simp only [catchRuntime] at hok
      have hv : v = .obj fs := by
        have := congrArg Prod.fst hok
        simpa using this
      subst hv
      exact parseRecord_count (genAt n) ks rv (bumpDepth o)
        (seedApply o st) fs st2 hb

/-- C7 (witness): the amended counts at a concrete map and record. -/
theorem c7_entry_counts_witness :
    (∀ es st', generateMock 3 (.zmap (.zstring []) (.znumber []))
        { mapEntriesLength := some 2 } initState = (.ok (.mapv es), st') →
      es.length = 2) ∧
    (∀ fs st', generateMock 3
        (.zrecord (.zliteral (.str "a")) .zboolean)
        { mapEntriesLength := some 2 } initState = (.ok (.obj fs), st') →
      fs.length ≤ 1) :=
  c7_entry_counts 2 { mapEntriesLength := some 2 } initState
    (.zstring []) (.znumber []) (.zliteral (.str "a")) .zboolean rfl

/-- C7 (counterexample): the claim asserts the record entry count equals
the configured target independently of key collisions, but with a literal
key and a target of 2 the generated record has a single entry. -/
theorem c7_entry_counts_counterexample :
    (generateMock 3 (.zrecord (.zliteral (.str "a")) .zboolean)
        { recordKeysLength := some 2 } initState).1 =
      .ok (.obj [("a", .bool true)]) ∧
    [("a", Value.bool true)].length = 1 ∧ (1 : Nat) ≠ 2 := by
  refine ⟨by rfl, rfl, by omega⟩

end ZodFactory

namespace ZodFactory

/-- A value is producible for a schema when some `generateMock` call on
that schema can return it. -/
def producible (s : SchemaNode) (v : Value) : Prop :=
  ∃ (fuel : Nat) (o : GenOptions) (st : RState),
    (run fuel (.gen s) o st).1 = .ok v

/-- A value returned by a `ZodUndefined` backup mock is producible for the
element schema: the entry-point pre-check returns exactly it. -/
theorem producible_backup (el : SchemaNode) (o : GenOptions)
    (m : BackupMock) (v : Value)
    (ht : (typeName el == "ZodUndefined") = true)
    (hm : backupLookup o "ZodUndefined" = some m)
    (hv : m el = .ok v) : producible el v := by
  refine ⟨1, o, initState, ?_⟩
  have hmd : backupLookup (defaultDepths o) "ZodUndefined" = some m := by
    rw [backupLookup_defaultDepths]
    exact hm
  simp [run, ht, hmd, runBackup, hv, catchRuntime]

/-- Every element of a successful tuple-item pass is producible for the
corresponding positional child. -/
theorem genItems_producible (g : Gen) (o : GenOptions)
    (hg : ∀ s o' st1 v st2, g s o' st1 = (.ok v, st2) → producible s v) :
    ∀ (items : List SchemaNode) (st : RState) (vs : List Value)
      (st' : RState),
    genItems g o items st = (.ok vs, st') →
    vs.length = items.length ∧
      ∀ (i : Nat) (h1 : i < items.length) (h2 : i < vs.length),
        producible (items.get ⟨i, h1⟩) (vs.get ⟨i, h2⟩) := by
  intro items
  induction items with
  | nil =>
    intro st vs st' h
    rw [genItems] at h
    have : ([] : List Value) = vs := by
      have := congrArg Prod.fst h
      simpa using this
    subst this
    exact ⟨rfl, fun i h1 h2 => absurd h1 (by simp at h1)⟩
  | cons s ss ih =>
    intro st vs st' h
    rw [genItems] at h
    rcases h1 : g s o st with ⟨r1, st1⟩
    rw [h1] at h
    cases r1 with
    | error e => simp at h
    | ok v =>
      simp only [] at h
      rcases h2 : genItems g o ss st1 with ⟨r2, st2⟩
      rw [h2] at h
      cases r2 with
      | error e => simp at h
      | ok vs' =>
        simp only [] at h
        have hvs : v :: vs' = vs := by
          have := congrArg Prod.fst h
          simpa using this
        subst hvs
        obtain ⟨hl, hp⟩ := ih st1 vs' st2 h2
        refine ⟨by simpa using hl, ?_⟩
        intro i hi1 hi2
        match i with
        | 0 => exact hg s o st v st1 h1
        | j + 1 =>
          exact hp j (by simpa using hi1) (by simpa using hi2)

/-- Every element of a successful array-element pass is producible for the
element schema. -/
theorem genCount_producible (g : Gen) (el : SchemaNode) (o : GenOptions)
    (hg : ∀ s o' st1 v st2, g s o' st1 = (.ok v, st2) → producible s v) :
    ∀ (cnt : Nat) (st : RState) (vs : List Value) (st' : RState),
    genCount g el o cnt st = (.ok vs, st') →
    ∀ v ∈ vs, producible el v := by
  intro cnt
  induction cnt with
  | zero =>
    intro st vs st' h
    rw [genCount] at h
    have : ([] : List Value) = vs := by
      have := congrArg Prod.fst h
      simpa using this
    subst this
    simp
  | succ k ih =>
    intro st vs st' h
    rw [genCount] at h
    by_cases hu : (typeName el == "ZodUndefined") = true
    · rw [if_pos hu] at h
      rcases hbm : backupLookup o "ZodUndefined" with _ | m
      · rw [hbm] at h
        rcases h1 : g el o st with ⟨r1, st1⟩
        rw [h1] at h
        cases r1 with
        | error e => simp at h
        | ok v =>
          simp only [] at h
          rcases h2 : genCount g el o k st1 with ⟨r2, st2⟩
          rw [h2] at h
          cases r2 with
          | error e => simp at h
          | ok vs' =>
            simp only [] at h
            have hvs : v :: vs' = vs := by
              have := congrArg Prod.fst h
              simpa using this
            subst hvs
            intro w hw
            rcases List.mem_cons.mp hw with hw | hw
            · subst hw
              exact hg el o st w st1 h1
            · exact ih st1 vs' st2 h2 w hw
      · rw [hbm] at h
        rcases hme : m el with _ | v
        · simp [runBackup, hme] at h
        · simp only [runBackup, hme] at h
          rcases h2 : genCount g el o k st with ⟨r2, st2⟩
          rw [h2] at h
          cases r2 with
          | error e => simp at h
          | ok vs' =>
            simp only [] at h
            have hvs : v :: vs' = vs := by
              have := congrArg Prod.fst h
              simpa using this
            subst hvs
            intro w hw
            rcases List.mem_cons.mp hw with hw | hw
            · subst hw
              exact producible_backup el o m w hu hbm hme
            · exact ih st vs' st2 h2 w hw
    · rw [if_neg hu] at h
      rcases h1 : g el o st with ⟨r1, st1⟩
      rw [h1] at h
      cases r1 with
      | error e => simp at h
      | ok v =>
        simp only [] at h
        rcases h2 : genCount g el o k st1 with ⟨r2, st2⟩
        rw [h2] at h
        cases r2 with
        | error e => simp at h
        | ok vs' =>
          simp only [] at h
          have hvs : v :: vs' = vs := by
            have := congrArg Prod.fst h
            simpa using this
          subst hvs
          intro w hw
          rcases List.mem_cons.mp hw with hw | hw
          · subst hw
            exact hg el o st w st1 h1
          · exact ih st1 vs' st2 h2 w hw

end ZodFactory

namespace ZodFactory

/-- Every element of a successful direct array synthesis is producible
for the element schema. -/
theorem arrDirect_producible (m : Nat) (a b c : Option Nat)
    (el : SchemaNode) (o : GenOptions) (st : RState) (ws : List Value)
    (st' : RState)
    (h : run m (.arrDirect (.zarray a b c el)) o st = (.ok (.arr ws), st')) :
    ∀ w ∈ ws, producible el w := by
  cases m with
  | zero => simp [run] at h
  | succ n =>
    simp only [run, parseArray, depthControlled, parseArrayBody] at h
    by_cases hd : depthReached (defaultDepths o)
    · rw [if_pos hd] at h
      have hws : ([] : List Value) = ws := by
        have := congrArg Prod.fst h
        simpa [depthDefault] using this
      subst hws
      simp
    · rw [if_neg hd] at h
      split at h
      · simp at h
      · rename_i tl fk1 heqInt
        split at h
        · rename_i vs2 st3 heqC
          have hvs : vs2 = ws := by
            have := congrArg Prod.fst h
            simpa using this
          subst hvs
          exact genCount_producible _ el _
            (fun s o' st1 v st2 hh => ⟨n, o', st1, by rw [hh]⟩)
            _ _ _ _ heqC
        · simp at h

end ZodFactory

namespace ZodFactory

/-- C8: a generated tuple with a declared rest element is an array whose
prefix consists of values producible by the positional children in
declared order, followed by zero or more elements all producible by the
rest sub-schema (the rest segment is synthesized by the array synthesizer
over a fresh unconstrained array node). -/
theorem c8_tuple_rest (fuel : Nat) (items : List SchemaNode)
    (rest : SchemaNode) (o : GenOptions) (st : RState) (vs : List Value)
    (st' : RState)
    (hok : generateMock fuel (.ztuple items (some rest)) o st =
      (.ok (.arr vs), st')) :
    ∃ pre post, vs = pre ++ post ∧ pre.length = items.length ∧
      (∀ (i : Nat) (h1 : i < items.length) (h2 : i < pre.length),
        producible (items.get ⟨i, h1⟩) (pre.get ⟨i, h2⟩)) ∧
      (∀ v ∈ post, producible rest v) := by
  cases fuel with
  | zero => simp [generateMock, run] at hok
  | succ n =>
    have hprec : (("ZodTuple" : String) == "ZodUndefined") = false := by
      decide
    simp only [generateMock, run, typeName, hprec, Bool.false_eq_true,
      if_false, parseZodTuple] at hok
    rcases heqI : genItems (fun s' o' st' => run n (GTarget.gen s') o' st')
        (defaultDepths o) items (seedApply (defaultDepths o) st)
      with ⟨rI, stI⟩
    rw [heqI] at hok
    cases rI with
    | error e => cases e <;> simp [catchRuntime] at hok
    | ok ivs =>
      simp only [] at hok
      rcases heqA : run n (.arrDirect (.zarray none none none rest))
          (defaultDepths o) stI with ⟨rA, stA⟩
      rw [heqA] at hok
      cases rA with
      | error e => cases e <;> simp [catchRuntime] at hok
      | ok next =>
        simp only [catchRuntime] at hok
        have hvs : ivs ++ arrElems next = vs := by
          have := congrArg Prod.fst hok
          simpa using this
        subst hvs
        obtain ⟨hl, hp⟩ := genItems_producible _ _
          (fun s o' st1 v st2 hh => ⟨n, o', st1, by rw [hh]⟩)
          items _ ivs _ heqI
        refine ⟨ivs, arrElems next, rfl, hl, hp, ?_⟩
        cases next with
        | arr ws =>
          intro v hv
          exact arrDirect_producible n none none none rest _ _ ws _ heqA v hv
        | _ =>
          intro v hv
          simp [arrElems] at hv

end ZodFactory

namespace ZodFactory

/-- C8 (witness): the decomposition at the spec's concrete scenario, a
tuple of a number and a boolean with a string rest element. -/
theorem c8_tuple_rest_witness :
    ∃ pre post,
      [Value.num 1, Value.bool true, Value.str "vwxyz",
        Value.str "fghijk", Value.str "pqrstuv", Value.str "defg",
        Value.str "nopqr", Value.str "xyzabc"] = pre ++ post ∧
      pre.length = [SchemaNode.znumber [], SchemaNode.zboolean].length ∧
      (∀ (i : Nat)
        (h1 : i < [SchemaNode.znumber [], SchemaNode.zboolean].length)
        (h2 : i < pre.length),
        producible ([SchemaNode.znumber [], SchemaNode.zboolean].get ⟨i, h1⟩)
          (pre.get ⟨i, h2⟩)) ∧
      (∀ v ∈ post, producible (.zstring []) v) :=
  c8_tuple_rest 3 [.znumber [], .zboolean] (.zstring []) {} initState
    [Value.num 1, Value.bool true, Value.str "vwxyz", Value.str "fghijk",
      Value.str "pqrstuv", Value.str "defg", Value.str "nopqr",
      Value.str "xyzabc"]
    ⟨⟨0, 15⟩, ⟨0, 0⟩⟩ (by rfl)

end ZodFactory

namespace ZodFactory

/-! ## Global-faker obliviousness (claim C1)

`parseUuid` is the only synthesizer that draws from the module-global
faker instead of the seeded options faker.  We show every schema free of
the `ZodUuid` tag neither reads nor advances the global instance, which is
what makes seeded generation reproducible for those schemas — and exactly
what fails on a `ZodUuid` node. -/

mutual

/-- No node of the schema dispatches to the global-faker `ZodUuid`
worker. -/
def noUuid : SchemaNode → Bool
  | .zstring _ => true
  | .znumber _ => true
  | .zbigint _ => true
  | .zboolean => true
  | .zdate _ => true
  | .zobject fields => noUuidFields fields
  | .zrecord k v => noUuid k && noUuid v
  | .zarray _ _ _ el => noUuid el
  | .zset _ _ v => noUuid v
  | .zmap k v => noUuid k && noUuid v
  | .zenum _ => true
  | .znativeEnum _ => true
  | .zliteral _ => true
  | .zunion alts => noUuidList alts
  | .zdiscUnion alts => noUuidList alts
  | .zintersection l r => noUuid l && noUuid r
  | .ztuple items rest =>
    noUuidList items &&
      (match rest with | some r => noUuid r | none => true)
  | .zoptional i => noUuid i
  | .znullable i => noUuid i
  | .zdefault _ i => noUuid i
  | .zbranded i => noUuid i
  | .zeffects s _ => noUuid s
  | .zfunction _ => true
  | .zpromise i => noUuid i
  | .zlazy i => noUuid i
  | .zvoid => true
  | .znull => true
  | .zundefined => true
  | .znan => true
  | .zuuid => false
  | .custom t => !(t == "ZodUuid")

/-- List version of `noUuid`. -/
def noUuidList : List SchemaNode → Bool
  | [] => true
  | s :: ss => noUuid s && noUuidList ss

/-- Named-fields version of `noUuid`. -/
def noUuidFields : List (String × SchemaNode) → Bool
  | [] => true
  | f :: fs => noUuid f.2 && noUuidFields fs

end

/-- Membership form of `noUuidList`. -/
theorem noUuidList_mem {alts : List SchemaNode}
    (h : noUuidList alts = true) : ∀ s ∈ alts, noUuid s = true := by
  induction alts with
  | nil => simp
  | cons a as ih =>
    rw [noUuidList] at h
    rcases Bool.and_eq_true_iff.mp h with ⟨h1, h2⟩
    intro s hs
    rcases List.mem_cons.mp hs with hs | hs
    · exact hs ▸ h1
    · exact ih h2 s hs

/-- Membership form of `noUuidFields`. -/
theorem noUuidFields_mem {fields : List (String × SchemaNode)}
    (h : noUuidFields fields = true) :
    ∀ f ∈ fields, noUuid f.2 = true := by
  induction fields with
  | nil => simp
  | cons a as ih =>
    rw [noUuidFields] at h
    rcases Bool.and_eq_true_iff.mp h with ⟨h1, h2⟩
    intro f hf
    rcases List.mem_cons.mp hf with hf | hf
    · exact hf ▸ h1
    · exact ih h2 f hf

/-- Target version of `noUuid`. -/
def noUuidTarget : GTarget → Bool
  | .gen s => noUuid s
  | .arrDirect s => noUuid s

/-- A state transformer is global-faker-free: its result and its effect on
the options faker are functions of the options faker alone, and the global
faker passes through untouched. -/
def GlFree {α : Type} (f : RState → α × RState) : Prop :=
  ∀ fk : FakerState, ∃ (r : α) (fk' : FakerState),
    ∀ gl : FakerState, f ⟨fk, gl⟩ = (r, ⟨fk', gl⟩)

/-- A uniform element choice lands in the list. -/
theorem fakerArrayElement_mem {α : Type} (l : List α) (fk : FakerState)
    (x : α) (_fk' : FakerState)
    (h : (fakerArrayElement l fk).1 = .ok x) : x ∈ l := by
  cases l with
  | nil => simp [fakerArrayElement] at h
  | cons a as =>
    simp only [fakerArrayElement] at h
    have hx : (a :: as).getD (frand fk % (as.length + 1)) a = x := by
      simpa using h
    subst hx
    by_cases hlt : frand fk % (as.length + 1) < (a :: as).length
    · rw [List.getD_eq_getElem _ _ hlt]
      exact List.getElem_mem hlt
    · rw [List.getD_eq_default _ _ (by omega)]
      simp

end ZodFactory

namespace ZodFactory

/-- The object field loop is global-faker-free when the callback is. -/
theorem genFields_glFree (g : Gen) (o : GenOptions)
    (hg : ∀ s o', noUuid s = true → GlFree (g s o')) :
    ∀ fields : List (String × SchemaNode),
      (∀ f ∈ fields, noUuid f.2 = true) → GlFree (genFields g o fields) := by
  intro fields
  induction fields with
  | nil =>
    intro _ fk
    exact ⟨.ok [], fk, fun gl => by rw [genFields]⟩
  | cons f fs ih =>
    intro hmem fk
    obtain ⟨r1, fk1, h1⟩ :=
      hg f.2 { o with keyName := some f.1 } (hmem f (by simp)) fk
    cases r1 with
    | error e =>
      exact ⟨.error e, fk1, fun gl => by simp [genFields, h1 gl]⟩
    | ok v =>
      obtain ⟨r2, fk2, h2⟩ := ih (fun x hx => hmem x (by simp [hx])) fk1
      cases r2 with
      | error e =>
        exact ⟨.error e, fk2, fun gl => by simp [genFields, h1 gl, h2 gl]⟩
      | ok vs =>
        exact ⟨.ok ((f.1, v) :: vs), fk2,
          fun gl => by simp [genFields, h1 gl, h2 gl]⟩

/-- The tuple item loop is global-faker-free when the callback is. -/
theorem genItems_glFree (g : Gen) (o : GenOptions)
    (hg : ∀ s o', noUuid s = true → GlFree (g s o')) :
    ∀ items : List SchemaNode,
      (∀ s ∈ items, noUuid s = true) → GlFree (genItems g o items) := by
  intro items
  induction items with
  | nil =>
    intro _ fk
    exact ⟨.ok [], fk, fun gl => by rw [genItems]⟩
  | cons s ss ih =>
    intro hmem fk
    obtain ⟨r1, fk1, h1⟩ := hg s o (hmem s (by simp)) fk
    cases r1 with
    | error e =>
      exact ⟨.error e, fk1, fun gl => by simp [genItems, h1 gl]⟩
    | ok v =>
      obtain ⟨r2, fk2, h2⟩ := ih (fun x hx => hmem x (by simp [hx])) fk1
      cases r2 with
      | error e =>
        exact ⟨.error e, fk2, fun gl => by simp [genItems, h1 gl, h2 gl]⟩
      | ok vs =>
        exact ⟨.ok (v :: vs), fk2,
          fun gl => by simp [genItems, h1 gl, h2 gl]⟩

/-- The array element loop is global-faker-free when the callback is (the
backup-mock shortcut is an options-only computation). -/
theorem genCount_glFree (g : Gen) (el : SchemaNode) (o : GenOptions)
    (hg : ∀ s o', noUuid s = true → GlFree (g s o'))
    (hel : noUuid el = true) :
    ∀ cnt : Nat, GlFree (genCount g el o cnt) := by
  intro cnt
  induction cnt with
  | zero =>
    intro fk
    exact ⟨.ok [], fk, fun gl => by rw [genCount]⟩
  | succ k ih =>
    intro fk
    by_cases hu : (typeName el == "ZodUndefined") = true
    · rcases hbm : backupLookup o "ZodUndefined" with _ | m
      · obtain ⟨r1, fk1, h1⟩ := hg el o hel fk
        cases r1 with
        | error e =>
          exact ⟨.error e, fk1,
            fun gl => by simp [genCount, hu, hbm, h1 gl]⟩
        | ok v =>
          obtain ⟨r2, fk2, h2⟩ := ih fk1
          cases r2 with
          | error e =>
            exact ⟨.error e, fk2,
              fun gl => by simp [genCount, hu, hbm, h1 gl, h2 gl]⟩
          | ok vs =>
            exact ⟨.ok (v :: vs), fk2,
              fun gl => by simp [genCount, hu, hbm, h1 gl, h2 gl]⟩
      · rcases hme : m el with _ | v
        · exact ⟨.error .runtime, fk,
            fun gl => by simp [genCount, hu, hbm, runBackup, hme]⟩
        · obtain ⟨r2, fk2, h2⟩ := ih fk
          cases r2 with
          | error e =>
            exact ⟨.error e, fk2,
              fun gl => by simp [genCount, hu, hbm, runBackup, hme, h2 gl]⟩
          | ok vs =>
            exact ⟨.ok (v :: vs), fk2,
              fun gl => by simp [genCount, hu, hbm, runBackup, hme, h2 gl]⟩
    · obtain ⟨r1, fk1, h1⟩ := hg el o hel fk
      cases r1 with
      | error e =>
        exact ⟨.error e, fk1, fun gl => by simp [genCount, hu, h1 gl]⟩
      | ok v =>
        obtain ⟨r2, fk2, h2⟩ := ih fk1
        cases r2 with
        | error e =>
          exact ⟨.error e, fk2,
            fun gl => by simp [genCount, hu, h1 gl, h2 gl]⟩
        | ok vs =>
          exact ⟨.ok (v :: vs), fk2,
            fun gl => by simp [genCount, hu, h1 gl, h2 gl]⟩

/-- The record loop is global-faker-free when the callback is. -/
theorem genRecordLoop_glFree (g : Gen) (ks vs : SchemaNode)
    (o : GenOptions)
    (hg : ∀ s o', noUuid s = true → GlFree (g s o'))
    (hk : noUuid ks = true) (hv : noUuid vs = true) :
    ∀ (k : Nat) (acc : List (String × Value)),
      GlFree (genRecordLoop g ks vs o k acc) := by
  intro k
  induction k with
  | zero =>
    intro acc fk
    exact ⟨.ok acc, fk, fun gl => by rw [genRecordLoop]⟩
  | succ m ih =>
    intro acc fk
    obtain ⟨r1, fk1, h1⟩ := hg ks o hk fk
    cases r1 with
    | error e =>
      exact ⟨.error e, fk1, fun gl => by simp [genRecordLoop, h1 gl]⟩
    | ok kv =>
      obtain ⟨r2, fk2, h2⟩ := hg vs o hv fk1
      cases r2 with
      | error e =>
        exact ⟨.error e, fk2,
          fun gl => by simp [genRecordLoop, h1 gl, h2 gl]⟩
      | ok vv =>
        obtain ⟨r3, fk3, h3⟩ :=
          ih (insertOverwrite acc (keyToString kv) vv) fk2
        exact ⟨r3, fk3,
          fun gl => by simp [genRecordLoop, h1 gl, h2 gl, h3 gl]⟩

/-- The set sampling loop is global-faker-free when the callback is. -/
theorem setLoop_glFree (g : Gen) (vt : SchemaNode) (o : GenOptions)
    (target : Nat)
    (hg : ∀ s o', noUuid s = true → GlFree (g s o'))
    (hv : noUuid vt = true) :
    ∀ (attempts : Nat) (acc : List Value),
      GlFree (setLoop g vt o target attempts acc) := by
  intro attempts
  induction attempts with
  | zero =>
    intro acc fk
    by_cases ht : target ≤ acc.length
    · exact ⟨.ok acc, fk, fun gl => by rw [setLoop]; rw [if_pos ht]⟩
    · exact ⟨.error .diverge, fk, fun gl => by rw [setLoop]; rw [if_neg ht]⟩
  | succ a ih =>
    intro acc fk
    by_cases ht : target ≤ acc.length
    · exact ⟨.ok acc, fk, fun gl => by rw [setLoop]; rw [if_pos ht]⟩
    · obtain ⟨r1, fk1, h1⟩ := hg vt o hv fk
      cases r1 with
      | error e =>
        exact ⟨.error e, fk1,
          fun gl => by rw [setLoop]; rw [if_neg ht]; simp [h1 gl]⟩
      | ok v =>
        obtain ⟨r2, fk2, h2⟩ := ih (setAdd acc v) fk1
        exact ⟨r2, fk2,
          fun gl => by rw [setLoop]; rw [if_neg ht]; simp [h1 gl, h2 gl]⟩

/-- The map sampling loop is global-faker-free when the callback is. -/
theorem mapLoop_glFree (g : Gen) (kt vt : SchemaNode) (o : GenOptions)
    (target : Nat)
    (hg : ∀ s o', noUuid s = true → GlFree (g s o'))
    (hk : noUuid kt = true) (hv : noUuid vt = true) :
    ∀ (attempts : Nat) (acc : List (Value × Value)),
      GlFree (mapLoop g kt vt o target attempts acc) := by
  intro attempts
  induction attempts with
  | zero =>
    intro acc fk
    by_cases ht : target ≤ acc.length
    · exact ⟨.ok acc, fk, fun gl => by rw [mapLoop]; rw [if_pos ht]⟩
    · exact ⟨.error .diverge, fk, fun gl => by rw [mapLoop]; rw [if_neg ht]⟩
  | succ a ih =>
    intro acc fk
    by_cases ht : target ≤ acc.length
    · exact ⟨.ok acc, fk, fun gl => by rw [mapLoop]; rw [if_pos ht]⟩
    · obtain ⟨r1, fk1, h1⟩ := hg kt o hk fk
      cases r1 with
      | error e =>
        exact ⟨.error e, fk1,
          fun gl => by rw [mapLoop]; rw [if_neg ht]; simp [h1 gl]⟩
      | ok kv =>
        obtain ⟨r2, fk2, h2⟩ := hg vt o hv fk1
        cases r2 with
        | error e =>
          exact ⟨.error e, fk2,
            fun gl => by rw [mapLoop]; rw [if_neg ht]; simp [h1 gl, h2 gl]⟩
        | ok vv =>
          obtain ⟨r3, fk3, h3⟩ := ih (mapSet acc kv vv) fk2
          exact ⟨r3, fk3,
            fun gl => by
              rw [mapLoop]; rw [if_neg ht]; simp [h1 gl, h2 gl, h3 gl]⟩

end ZodFactory

namespace ZodFactory

/-- Value part of the entry-point catch. -/
def crVal (r : Except GErr Value) : Except GErr Value :=
  match r with
  | .error .runtime => .ok .undef
  | x => x

/-- The catch only rewrites the value; the state passes through. -/
theorem catchRuntime_eq (r : Except GErr Value) (st : RState) :
    catchRuntime (r, st) = (crVal r, st) := by
  cases r with
  | ok v => rfl
  | error e => cases e <;> rfl

/-- The options faker after the seeding step. -/
def seedFk (o : GenOptions) (fk : FakerState) : FakerState :=
  match o.seed with
  | some sd => fakerSeed sd
  | none => fk

/-- Seeding touches only the options faker. -/
theorem seedApply_eq (o : GenOptions) (fk gl : FakerState) :
    seedApply o ⟨fk, gl⟩ = ⟨seedFk o fk, gl⟩ := by
  cases h : o.seed <;> simp [seedApply, seedFk, h]

/-- Outside the `ZodUuid` tag, the fallback dispatch never touches the
state: its value is a function of the options, tag and node alone. -/
theorem customDispatch_pure (o : GenOptions) (tag : String) (s : SchemaNode)
    (ht : tag ≠ "ZodUuid") :
    ∃ rv : Except GErr Value, ∀ st : RState,
      customDispatch o tag s st = (rv, st) := by
  unfold customDispatch
  by_cases h1 : tag = "ZodNull"
  · exact ⟨.ok .vnull, fun st => by simp [h1]⟩
  · by_cases h2 : tag = "ZodVoid" ∨ tag = "ZodUndefined" ∨ tag = "ZodNaN"
    · exact ⟨.ok .undef, fun st => by simp [h1, h2]⟩
    · by_cases h4 : tag ∈ workerMapKeys
      · exact ⟨.error .runtime, fun st => by simp [h1, h2, ht, h4]⟩
      · rcases hbm : backupLookup o tag with _ | m
        · by_cases h5 : o.throwOnUnknownType.getD false = true
          · exact ⟨.error (.mock tag), fun st => by
              simp [h1, h2, ht, h4, hbm, h5]⟩
          · exact ⟨.ok .undef, fun st => by
              simp [h1, h2, ht, h4, hbm, h5]⟩
        · rcases hms : m s with _ | v
          · exact ⟨.error .runtime, fun st => by
              simp [h1, h2, ht, h4, hbm, runBackup, hms]⟩
          · exact ⟨.ok v, fun st => by
              simp [h1, h2, ht, h4, hbm, runBackup, hms]⟩

/-- A backup-mock invocation never touches the state. -/
theorem runBackup_pure (m : BackupMock) (s : SchemaNode) :
    ∃ rv : Except GErr Value, ∀ st : RState, runBackup m s st = (rv, st) := by
  rcases hms : m s with _ | v
  · exact ⟨.error .runtime, fun st => by simp [runBackup, hms]⟩
  · exact ⟨.ok v, fun st => by simp [runBackup, hms]⟩

/-- The array synthesizer is global-faker-free when the callback is. -/
theorem parseArray_glFree (g : Gen) (s : SchemaNode) (o : GenOptions)
    (hg : ∀ s' o', noUuid s' = true → GlFree (g s' o'))
    (hs : noUuid s = true) : GlFree (parseArray g s o) := by
  by_cases hd : depthReached (defaultDepths o) = true
  · intro fk
    exact ⟨.ok (depthDefault s), fk,
      fun gl => by simp [parseArray, depthControlled, hd]⟩
  · cases s with
    | zarray a b c el =>
      intro fk
      rcases hint : fakerIntNat (arrayBounds a b c).1 (arrayBounds a b c).2
          fk with ⟨ri, fk1⟩
      cases ri with
      | error e =>
        exact ⟨.error .runtime, fk1, fun gl => by
          simp [parseArray, depthControlled, hd, parseArrayBody, hint]⟩
      | ok tl =>
        have hel : noUuid el = true := by simpa [noUuid] using hs
        obtain ⟨r2, fk2, h2⟩ :=
          genCount_glFree g el (bumpDepth (defaultDepths o)) hg hel
            tl.toNat fk1
        cases r2 with
        | error e =>
          exact ⟨.error e, fk2, fun gl => by
            simp [parseArray, depthControlled, hd, parseArrayBody, hint,
              h2 gl]⟩
        | ok vs =>
          exact ⟨.ok (.arr vs), fk2, fun gl => by
            simp [parseArray, depthControlled, hd, parseArrayBody, hint,
              h2 gl]⟩
    | _ =>
      intro fk
      first
      | exact ⟨.error .runtime, fk,
          fun gl => by simp [parseArray, depthControlled, hd, parseArrayBody]⟩

end ZodFactory

namespace ZodFactory

/-- The set synthesizer is global-faker-free when the callback is. -/
theorem parseSet_glFree (g : Gen) (mns mxs : Option Nat) (vt : SchemaNode)
    (o : GenOptions)
    (hg : ∀ s' o', noUuid s' = true → GlFree (g s' o'))
    (hv : noUuid vt = true) : GlFree (parseSet g (.zset mns mxs vt) o) := by
  by_cases hd : depthReached (defaultDepths o) = true
  · intro fk
    exact ⟨.ok (.setv []), fk,
      fun gl => by simp [parseSet, depthControlled, hd, depthDefault]⟩
  · intro fk
    rcases hint : fakerIntNat (setBounds mns mxs).1 (setBounds mns mxs).2
        fk with ⟨ri, fk1⟩
    cases ri with
    | error e =>
      exact ⟨.error .runtime, fk1, fun gl => by
        simp [parseSet, depthControlled, hd, parseSetBody, hint]⟩
    | ok tl =>
      obtain ⟨r2, fk2, h2⟩ :=
        setLoop_glFree g vt (bumpDepth (defaultDepths o)) tl.toNat hg hv
          (loopAttempts tl.toNat) [] fk1
      cases r2 with
      | error e =>
        exact ⟨.error e, fk2, fun gl => by
          simp [parseSet, depthControlled, hd, parseSetBody, hint, h2 gl]⟩
      | ok vs =>
        exact ⟨.ok (.setv vs), fk2, fun gl => by
          simp [parseSet, depthControlled, hd, parseSetBody, hint, h2 gl]⟩

/-- The map synthesizer is global-faker-free when the callback is. -/
theorem parseMap_glFree (g : Gen) (kt vt : SchemaNode) (o : GenOptions)
    (hg : ∀ s' o', noUuid s' = true → GlFree (g s' o'))
    (hk : noUuid kt = true) (hv : noUuid vt = true) :
    GlFree (parseMap g (.zmap kt vt) o) := by
  by_cases hd : depthReached (defaultDepths o) = true
  · intro fk
    exact ⟨.ok (.mapv []), fk,
      fun gl => by simp [parseMap, depthControlled, hd, depthDefault]⟩
  · intro fk
    obtain ⟨r2, fk2, h2⟩ :=
      mapLoop_glFree g kt vt (bumpDepth (defaultDepths o))
        ((bumpDepth (defaultDepths o)).mapEntriesLength.getD 1) hg hk hv
        (loopAttempts ((bumpDepth (defaultDepths o)).mapEntriesLength.getD 1))
        [] fk
    cases r2 with
    | error e =>
      exact ⟨.error e, fk2, fun gl => by
        simp [parseMap, depthControlled, hd, parseMapBody, h2 gl]⟩
    | ok es =>
      exact ⟨.ok (.mapv es), fk2, fun gl => by
        simp [parseMap, depthControlled, hd, parseMapBody, h2 gl]⟩

end ZodFactory

namespace ZodFactory

/-- The engine never reads or advances the module-global faker while
generating a schema free of the `ZodUuid` tag: the result and the options
faker's final state are functions of the options faker alone, and the
global faker passes through untouched. -/
theorem run_glFree :
    ∀ (fuel : Nat) (t : GTarget) (o : GenOptions),
      noUuidTarget t = true → GlFree (run fuel t o) := by
  intro fuel
  induction fuel with
  | zero =>
    intro t o _ fk
    exact ⟨.error .fuel, fk, fun gl => by rw [run]⟩
  | succ n ih =>
    intro t o ht
    have hgen : ∀ s' o', noUuid s' = true →
        GlFree (fun st => run n (.gen s') o' st) :=
      fun s' o' hs => ih (.gen s') o' hs
    cases t with
    | arrDirect s =>
      have hs : noUuid s = true := ht
      intro fk
      obtain ⟨r, fk', h⟩ := parseArray_glFree
        (fun s' o' st' => run n (.gen s') o' st') s o hgen hs fk
      exact ⟨r, fk', fun gl => by rw [run]; exact h gl⟩
    | gen s =>
      have hs : noUuid s = true := ht
      cases s with
      | zstring checks =>
        intro fk
        rcases hps : parseString checks (defaultDepths o)
            (seedFk (defaultDepths o) fk) with ⟨r0, fkp⟩
        exact ⟨crVal (r0.map .str), fkp, fun gl => by
          simp [run, typeName, seedApply_eq, hps, catchRuntime_eq]⟩
      | znumber checks =>
        intro fk
        rcases hps : parseNumber checks (seedFk (defaultDepths o) fk)
          with ⟨r0, fkp⟩
        exact ⟨crVal (r0.map .num), fkp, fun gl => by
          simp [run, typeName, seedApply_eq, hps, catchRuntime_eq]⟩
      | zbigint checks =>
        intro fk
        rcases hps : parseNumber checks (seedFk (defaultDepths o) fk)
          with ⟨r0, fkp⟩
        exact ⟨crVal (r0.map .num), fkp, fun gl => by
          simp [run, typeName, seedApply_eq, hps, catchRuntime_eq]⟩
      | zboolean =>
        intro fk
        rcases hb : fakerBoolean (seedFk (defaultDepths o) fk) with ⟨b, fkp⟩
        exact ⟨.ok (.bool b), fkp, fun gl => by
          simp [run, typeName, seedApply_eq, hb, catchRuntime_eq, crVal]⟩
      | zdate checks =>
        intro fk
        rcases hps : parseDate checks (seedFk (defaultDepths o) fk)
          with ⟨r0, fkp⟩
        exact ⟨crVal r0, fkp, fun gl => by
          simp [run, typeName, seedApply_eq, hps, catchRuntime_eq]⟩
      | zobject fields =>
        have hfs := noUuidFields_mem (by simpa [noUuid] using hs)
        by_cases hd : depthReached (defaultDepths o) = true
        · intro fk
          exact ⟨.ok (.obj []), seedFk (defaultDepths o) fk, fun gl => by
            simp [run, typeName, seedApply_eq, parseObject, depthControlled,
              defaultDepths_idem, hd, catchRuntime_eq, crVal, depthDefault]⟩
        · intro fk
          obtain ⟨r, fk', h⟩ := genFields_glFree
            (fun s' o' st' => run n (.gen s') o' st')
            (bumpDepth (defaultDepths o)) hgen fields hfs
            (seedFk (defaultDepths o) fk)
          cases r with
          | error e =>
            exact ⟨crVal (.error e), fk', fun gl => by
              simp [run, typeName, seedApply_eq, parseObject,
                depthControlled, defaultDepths_idem, hd, parseObjectBody,
                h gl, catchRuntime_eq]⟩
          | ok vs =>
            exact ⟨.ok (.obj vs), fk', fun gl => by
              simp [run, typeName, seedApply_eq, parseObject,
                depthControlled, defaultDepths_idem, hd, parseObjectBody,
                h gl, catchRuntime_eq, crVal]⟩
      | zrecord ks rv =>
        have hks : noUuid ks = true := by
          have := hs
          simp [noUuid] at this
          exact this.1
        have hrv : noUuid rv = true := by
          have := hs
          simp [noUuid] at this
          exact this.2
        by_cases hd : depthReached (defaultDepths o) = true
        · intro fk
          exact ⟨.ok .undef, seedFk (defaultDepths o) fk, fun gl => by
            simp [run, typeName, seedApply_eq, depthControlled,
              defaultDepths_idem, hd, catchRuntime_eq, crVal, depthDefault]⟩
        · intro fk
          obtain ⟨r, fk', h⟩ := genRecordLoop_glFree
            (fun s' o' st' => run n (.gen s') o' st') ks rv
            (bumpDepth (defaultDepths o)) hgen hks hrv
            (match (bumpDepth (defaultDepths o)).recordKeysLength with
              | some v => if v = 0 then 1 else v
              | none => 1) []
            (seedFk (defaultDepths o) fk)
          cases r with
          | error e =>
            exact ⟨crVal (.error e), fk', fun gl => by
              simp [run, typeName, seedApply_eq, depthControlled,
                defaultDepths_idem, hd, parseRecord, h gl, catchRuntime_eq]⟩
          | ok fs =>
            exact ⟨.ok (.obj fs), fk', fun gl => by
              simp [run, typeName, seedApply_eq, depthControlled,
                defaultDepths_idem, hd, parseRecord, h gl, catchRuntime_eq,
                crVal]⟩
      | zarray a b c el =>
        intro fk
        obtain ⟨r, fk', h⟩ := parseArray_glFree
          (fun s' o' st' => run n (.gen s') o' st') (.zarray a b c el)
          (defaultDepths o) hgen hs (seedFk (defaultDepths o) fk)
        exact ⟨crVal r, fk', fun gl => by
          simp [run, typeName, seedApply_eq, h gl, catchRuntime_eq]⟩
      | zset mns mxs vt =>
        have hv : noUuid vt = true := by simpa [noUuid] using hs
        intro fk
        obtain ⟨r, fk', h⟩ := parseSet_glFree
          (fun s' o' st' => run n (.gen s') o' st') mns mxs vt
          (defaultDepths o) hgen hv (seedFk (defaultDepths o) fk)
        exact ⟨crVal r, fk', fun gl => by
          simp [run, typeName, seedApply_eq, h gl, catchRuntime_eq]⟩
      | zmap kt vt =>
        have hkv : noUuid kt = true ∧ noUuid vt = true := by
          have := hs
          simp [noUuid] at this
          exact this
        intro fk
        obtain ⟨r, fk', h⟩ := parseMap_glFree
          (fun s' o' st' => run n (.gen s') o' st') kt vt
          (defaultDepths o) hgen hkv.1 hkv.2 (seedFk (defaultDepths o) fk)
        exact ⟨crVal r, fk', fun gl => by
          simp [run, typeName, seedApply_eq, h gl, catchRuntime_eq]⟩
      | zenum values =>
        intro fk
        rcases hps : parseEnum values (seedFk (defaultDepths o) fk)
          with ⟨r0, fkp⟩
        exact ⟨crVal r0, fkp, fun gl => by
          simp [run, typeName, seedApply_eq, hps, catchRuntime_eq]⟩
      | znativeEnum values =>
        intro fk
        rcases hps : parseNativeEnum values (seedFk (defaultDepths o) fk)
          with ⟨r0, fkp⟩
        exact ⟨crVal r0, fkp, fun gl => by
          simp [run, typeName, seedApply_eq, hps, catchRuntime_eq]⟩
      | zliteral v =>
        intro fk
        exact ⟨.ok v, seedFk (defaultDepths o) fk, fun gl => by
          simp [run, typeName, seedApply_eq, catchRuntime_eq, crVal]⟩
      | zunion alts =>
        have halts := noUuidList_mem (by simpa [noUuid] using hs)
        intro fk
        rcases hae : fakerArrayElement alts (seedFk (defaultDepths o) fk)
          with ⟨rc, fk1⟩
        cases rc with
        | error e =>
          exact ⟨.ok .undef, fk1, fun gl => by
            simp [run, typeName, seedApply_eq, parseUnion, hae,
              catchRuntime]⟩
        | ok m =>
          have hm : noUuid m = true :=
            halts m (fakerArrayElement_mem alts _ m fk1 (by rw [hae]))
          obtain ⟨r, fk', h⟩ := hgen m (defaultDepths o) hm fk1
          exact ⟨crVal r, fk', fun gl => by
            simp [run, typeName, seedApply_eq, parseUnion, hae, h gl,
              catchRuntime_eq]⟩
      | zdiscUnion alts =>
        have halts := noUuidList_mem (by simpa [noUuid] using hs)
        intro fk
        rcases hae : fakerArrayElement alts (seedFk (defaultDepths o) fk)
          with ⟨rc, fk1⟩
        cases rc with
        | error e =>
          exact ⟨.ok .undef, fk1, fun gl => by
            simp [run, typeName, seedApply_eq, parseDiscriminatedUnion, hae,
              catchRuntime]⟩
        | ok m =>
          have hm : noUuid m = true :=
            halts m (fakerArrayElement_mem alts _ m fk1 (by rw [hae]))
          obtain ⟨r, fk', h⟩ := hgen m (defaultDepths o) hm fk1
          exact ⟨crVal r, fk', fun gl => by
            simp [run, typeName, seedApply_eq, parseDiscriminatedUnion, hae,
              h gl, catchRuntime_eq]⟩
      | zintersection l r =>
        have hlr : noUuid l = true ∧ noUuid r = true := by
          have := hs
          simp [noUuid] at this
          exact this
        intro fk
        obtain ⟨rl, fk1, h1⟩ :=
          hgen l (defaultDepths o) hlr.1 (seedFk (defaultDepths o) fk)
        cases rl with
        | error e =>
          exact ⟨crVal (.error e), fk1, fun gl => by
            simp [run, typeName, seedApply_eq, parseZodIntersection, h1 gl,
              catchRuntime_eq]⟩
        | ok lv =>
          obtain ⟨rr, fk2, h2⟩ := hgen r (defaultDepths o) hlr.2 fk1
          cases rr with
          | error e =>
            exact ⟨crVal (.error e), fk2, fun gl => by
              simp [run, typeName, seedApply_eq, parseZodIntersection,
                h1 gl, h2 gl, catchRuntime_eq]⟩
          | ok rv =>
            rcases hoa : objectAssign lv rv with e | v
            · exact ⟨crVal (.error e), fk2, fun gl => by
                simp [run, typeName, seedApply_eq, parseZodIntersection,
                  h1 gl, h2 gl, hoa, catchRuntime_eq]⟩
            · exact ⟨.ok v, fk2, fun gl => by
                simp [run, typeName, seedApply_eq, parseZodIntersection,
                  h1 gl, h2 gl, hoa, catchRuntime_eq, crVal]⟩
      | ztuple items rest =>
        cases rest with
        | none =>
          have hitems := noUuidList_mem (by simpa [noUuid] using hs)
          intro fk
          obtain ⟨ri, fk1, h1⟩ := genItems_glFree
            (fun s' o' st' => run n (.gen s') o' st') (defaultDepths o) hgen
            items hitems (seedFk (defaultDepths o) fk)
          cases ri with
          | error e =>
            exact ⟨crVal (.error e), fk1, fun gl => by
              simp [run, typeName, seedApply_eq, parseZodTuple, h1 gl,
                catchRuntime_eq]⟩
          | ok ivs =>
            exact ⟨.ok (.arr ivs), fk1, fun gl => by
              simp [run, typeName, seedApply_eq, parseZodTuple, h1 gl,
                catchRuntime_eq, crVal]⟩
        | some rst =>
          have hpair : noUuidList items = true ∧ noUuid rst = true := by
            simpa [noUuid] using hs
          have hitems := noUuidList_mem hpair.1
          intro fk
          obtain ⟨ri, fk1, h1⟩ := genItems_glFree
            (fun s' o' st' => run n (.gen s') o' st') (defaultDepths o) hgen
            items hitems (seedFk (defaultDepths o) fk)
          cases ri with
          | error e =>
            exact ⟨crVal (.error e), fk1, fun gl => by
              simp [run, typeName, seedApply_eq, parseZodTuple, h1 gl,
                catchRuntime_eq]⟩
          | ok ivs =>
            have harr : noUuidTarget
                (.arrDirect (.zarray none none none rst)) = true := by
              simpa [noUuidTarget, noUuid] using hpair.2
            obtain ⟨ra, fk2, h2⟩ :=
              ih (.arrDirect (.zarray none none none rst))
                (defaultDepths o) harr fk1
            cases ra with
            | error e =>
              exact ⟨crVal (.error e), fk2, fun gl => by
                simp [run, typeName, seedApply_eq, parseZodTuple, h1 gl,
                  h2 gl, catchRuntime_eq]⟩
            | ok next =>
              exact ⟨.ok (.arr (ivs ++ arrElems next)), fk2, fun gl => by
                simp [run, typeName, seedApply_eq, parseZodTuple, h1 gl,
                  h2 gl, catchRuntime_eq, crVal]⟩
      | zoptional inner =>
        have hi : noUuid inner = true := by simpa [noUuid] using hs
        intro fk
        obtain ⟨r, fk', h⟩ :=
          hgen inner (defaultDepths o) hi (seedFk (defaultDepths o) fk)
        exact ⟨crVal r, fk', fun gl => by
          simp [run, typeName, seedApply_eq, parseOptional, h gl,
            catchRuntime_eq]⟩
      | znullable inner =>
        have hi : noUuid inner = true := by simpa [noUuid] using hs
        intro fk
        obtain ⟨r, fk', h⟩ :=
          hgen inner (defaultDepths o) hi (seedFk (defaultDepths o) fk)
        exact ⟨crVal r, fk', fun gl => by
          simp [run, typeName, seedApply_eq, parseOptional, h gl,
            catchRuntime_eq]⟩
      | zdefault dv inner =>
        have hi : noUuid inner = true := by simpa [noUuid] using hs
        intro fk
        rcases hb : fakerBoolean (seedFk (defaultDepths o) fk) with ⟨b, fk1⟩
        cases b with
        | true =>
          exact ⟨.ok dv, fk1, fun gl => by
            simp [run, typeName, seedApply_eq, parseZodDefault, hb,
              catchRuntime_eq, crVal]⟩
        | false =>
          obtain ⟨r, fk', h⟩ := hgen inner (defaultDepths o) hi fk1
          exact ⟨crVal r, fk', fun gl => by
            simp [run, typeName, seedApply_eq, parseZodDefault, hb, h gl,
              catchRuntime_eq]⟩
      | zbranded inner =>
        have hi : noUuid inner = true := by simpa [noUuid] using hs
        intro fk
        obtain ⟨r, fk', h⟩ :=
          hgen inner (defaultDepths o) hi (seedFk (defaultDepths o) fk)
        exact ⟨crVal r, fk', fun gl => by
          simp [run, typeName, seedApply_eq, parseBranded, h gl,
            catchRuntime_eq]⟩
      | zeffects schema eff =>
        have hi : noUuid schema = true := by simpa [noUuid] using hs
        intro fk
        obtain ⟨r, fk', h⟩ :=
          hgen schema (defaultDepths o) hi (seedFk (defaultDepths o) fk)
        cases r with
        | error e =>
          exact ⟨crVal (.error e), fk', fun gl => by
            simp [run, typeName, seedApply_eq, parseTransform, h gl,
              catchRuntime_eq]⟩
        | ok input =>
          cases eff with
          | none =>
            exact ⟨.ok input, fk', fun gl => by
              simp [run, typeName, seedApply_eq, parseTransform, h gl,
                catchRuntime_eq, crVal]⟩
          | some f =>
            rcases hf : f input with e | v
            · exact ⟨.ok .undef, fk', fun gl => by
                simp [run, typeName, seedApply_eq, parseTransform, h gl, hf,
                  catchRuntime]⟩
            · exact ⟨.ok v, fk', fun gl => by
                simp [run, typeName, seedApply_eq, parseTransform, h gl, hf,
                  catchRuntime_eq, crVal]⟩
      | zfunction returns =>
        intro fk
        exact ⟨.ok .funcV, seedFk (defaultDepths o) fk, fun gl => by
          simp [run, typeName, seedApply_eq, parseZodFunction,
            catchRuntime_eq, crVal]⟩
      | zpromise inner =>
        have hi : noUuid inner = true := by simpa [noUuid] using hs
        intro fk
        obtain ⟨r, fk', h⟩ :=
          hgen inner (defaultDepths o) hi (seedFk (defaultDepths o) fk)
        cases r with
        | error e =>
          exact ⟨crVal (.error e), fk', fun gl => by
            simp [run, typeName, seedApply_eq, parseZodPromise, h gl,
              catchRuntime_eq]⟩
        | ok v =>
          exact ⟨.ok (.promise v), fk', fun gl => by
            simp [run, typeName, seedApply_eq, parseZodPromise, h gl,
              catchRuntime_eq, crVal]⟩
      | zlazy inner =>
        have hi : noUuid inner = true := by simpa [noUuid] using hs
        by_cases hd : depthReached (defaultDepths o) = true
        · intro fk
          exact ⟨.ok .undef, seedFk (defaultDepths o) fk, fun gl => by
            simp [run, typeName, seedApply_eq, depthControlled,
              defaultDepths_idem, hd, catchRuntime_eq, crVal, depthDefault]⟩
        · intro fk
          obtain ⟨r, fk', h⟩ :=
            hgen inner (bumpDepth (defaultDepths o)) hi
              (seedFk (defaultDepths o) fk)
          exact ⟨crVal r, fk', fun gl => by
            simp [run, typeName, seedApply_eq, depthControlled,
              defaultDepths_idem, hd, parseLazy, h gl, catchRuntime_eq]⟩
      | zvoid =>
        intro fk
        exact ⟨.ok .undef, seedFk (defaultDepths o) fk, fun gl => by
          simp [run, typeName, seedApply_eq, catchRuntime_eq, crVal]⟩
      | znull =>
        intro fk
        exact ⟨.ok .vnull, seedFk (defaultDepths o) fk, fun gl => by
          simp [run, typeName, seedApply_eq, catchRuntime_eq, crVal]⟩
      | znan =>
        intro fk
        exact ⟨.ok .undef, seedFk (defaultDepths o) fk, fun gl => by
          simp [run, typeName, seedApply_eq, catchRuntime_eq, crVal]⟩
      | zundefined =>
        intro fk
        rcases hbm : backupLookup (defaultDepths o) "ZodUndefined"
          with _ | m
        · exact ⟨.ok .undef, seedFk (defaultDepths o) fk, fun gl => by
            simp [run, typeName, seedApply_eq, hbm, catchRuntime_eq, crVal]⟩
        · obtain ⟨rv, hrv⟩ := runBackup_pure m .zundefined
          exact ⟨crVal rv, seedFk (defaultDepths o) fk, fun gl => by
            simp [run, typeName, seedApply_eq, hbm, hrv, catchRuntime_eq]⟩
      | zuuid =>
        simp [noUuid] at hs
      | custom tag =>
        have htag : tag ≠ "ZodUuid" := by
          simpa [noUuid] using hs
        obtain ⟨rv, hrv⟩ := customDispatch_pure (defaultDepths o) tag
          (.custom tag) htag
        by_cases hu : tag = "ZodUndefined"
        · subst hu
          intro fk
          rcases hbm : backupLookup (defaultDepths o) "ZodUndefined"
            with _ | m
          · exact ⟨crVal rv, seedFk (defaultDepths o) fk, fun gl => by
              simp [run, typeName, seedApply_eq, hbm, hrv, catchRuntime_eq]⟩
          · obtain ⟨rv2, hrv2⟩ := runBackup_pure m (.custom "ZodUndefined")
            exact ⟨crVal rv2, seedFk (defaultDepths o) fk, fun gl => by
              simp [run, typeName, seedApply_eq, hbm, hrv2, catchRuntime_eq]⟩
        · intro fk
          exact ⟨crVal rv, seedFk (defaultDepths o) fk, fun gl => by
            simp [run, typeName, seedApply_eq, hu, hrv, catchRuntime_eq]⟩

end ZodFactory

namespace ZodFactory

/-- When a seed option is present, the entry point overwrites the options
faker before anything reads it, so the incoming options-faker state is
irrelevant. -/
theorem run_seed_insensitive (n : Nat) (s : SchemaNode) (o : GenOptions)
    (sd : Nat) (hs : o.seed = some sd) (fk gl : FakerState) :
    run (n + 1) (.gen s) o ⟨fk, gl⟩ =
      run (n + 1) (.gen s) o ⟨fakerSeed sd, gl⟩ := by
  have hsd : (defaultDepths o).seed = some sd := hs
  have h1 : seedApply (defaultDepths o) ⟨fk, gl⟩ = ⟨fakerSeed sd, gl⟩ := by
    simp [seedApply, hsd]
  have h2 : seedApply (defaultDepths o) ⟨fakerSeed sd, gl⟩ =
      ⟨fakerSeed sd, gl⟩ := by
    simp [seedApply, hsd]
  simp only [run, h1, h2]

/-- C1 (amended): under an explicit seed, two independent `generateMock`
invocations with the same schema and the same options produce identical
values whenever the schema is free of the `ZodUuid` tag — regardless of
the incoming states of the options faker and of the module-global faker.
(The `ZodUuid` synthesizer draws from the unseeded module-global faker,
which is what the counterexample exploits.) -/
theorem c1_seed_determinism (fuel : Nat) (s : SchemaNode) (o : GenOptions)
    (sd : Nat) (fk1 fk2 gl1 gl2 : FakerState)
    (hn : noUuid s = true) (hs : o.seed = some sd) :
    (generateMock fuel s o ⟨fk1, gl1⟩).1 =
      (generateMock fuel s o ⟨fk2, gl2⟩).1 := by
  cases fuel with
  | zero => rfl
  | succ n =>
    obtain ⟨r, fk', h⟩ := run_glFree (n + 1) (.gen s) o hn (fakerSeed sd)
    calc (generateMock (n + 1) s o ⟨fk1, gl1⟩).1
        = (run (n + 1) (.gen s) o ⟨fakerSeed sd, gl1⟩).1 := by
          rw [generateMock, run_seed_insensitive n s o sd hs]
      _ = r := by rw [h gl1]
      _ = (run (n + 1) (.gen s) o ⟨fakerSeed sd, gl2⟩).1 := by
          rw [h gl2]
      _ = (generateMock (n + 1) s o ⟨fk2, gl2⟩).1 := by
          rw [generateMock, ← run_seed_insensitive n s o sd hs fk2 gl2]

/-- C1 (witness): the amended determinism at a concrete seeded schema and
two entirely different incoming faker states. -/
theorem c1_seed_determinism_witness :
    (generateMock 2 (.zstring []) { seed := some 5 }
        ⟨⟨3, 9⟩, ⟨1, 4⟩⟩).1 =
      (generateMock 2 (.zstring []) { seed := some 5 }
        ⟨⟨8, 0⟩, ⟨2, 7⟩⟩).1 :=
  c1_seed_determinism 2 (.zstring []) { seed := some 5 } 5
    ⟨3, 9⟩ ⟨8, 0⟩ ⟨1, 4⟩ ⟨2, 7⟩ (by simp [noUuid]) rfl

/-- C1 (counterexample): the claim as stated fails on a node carrying the
`ZodUuid` tag: its synthesizer draws from the module-global faker, which
an explicit seed never touches, so a second independent invocation with
the identical schema and identical seed — starting from the global-faker
state the first invocation left behind — produces a different value. -/
theorem c1_seed_determinism_counterexample :
    (generateMock 1 .zuuid { seed := some 0 } ⟨⟨5, 5⟩, ⟨0, 0⟩⟩).1 ≠
      (generateMock 1 .zuuid { seed := some 0 }
        ⟨⟨7, 7⟩,
          (generateMock 1 .zuuid { seed := some 0 }
            ⟨⟨5, 5⟩, ⟨0, 0⟩⟩).2.gl⟩).1 := by
  intro h
  have h2 : (Except.ok (Value.str "uuid-1") : Except GErr Value) =
      .ok (.str "uuid-2654435762") := h
  simp at h2

end ZodFactory

namespace ZodFactory

/-! ## Backup-mock non-interference (claim C10)

The backup-mock table is consulted in exactly three places: the
`ZodUndefined` pre-check at the entry point, the same pre-check per
element inside the array synthesizer, and the fallback for tags missing
from the built-in registry.  Hence the engine's behaviour depends on the
table only through its entries for `ZodUndefined` and for non-built-in
tags; an entry for any other built-in tag is never invoked. -/

/-- Lookup in a raw backup-mock table. -/
def bmLookup (bm : Option (String → Option BackupMock)) (t : String) :
    Option BackupMock :=
  match bm with
  | some f => f t
  | none => none

/-- Two option bundles that differ at most in backup-mock entries for
built-in tags other than `ZodUndefined`. -/
def optsAgree (o1 o2 : GenOptions) : Prop :=
  o1.keyName = o2.keyName ∧ o1.stringMap = o2.stringMap ∧
  o1.mockeryMapper = o2.mockeryMapper ∧
  o1.recordKeysLength = o2.recordKeysLength ∧
  o1.mapEntriesLength = o2.mapEntriesLength ∧
  o1.throwOnUnknownType = o2.throwOnUnknownType ∧
  o1.seed = o2.seed ∧ o1.currentDepth = o2.currentDepth ∧
  o1.maxDepth = o2.maxDepth ∧
  ∀ t : String, (t ∉ workerMapKeys ∨ t = "ZodUndefined") →
    backupLookup o1 t = backupLookup o2 t

theorem optsAgree_defaultDepths {o1 o2 : GenOptions}
    (h : optsAgree o1 o2) :
    optsAgree (defaultDepths o1) (defaultDepths o2) := by
  obtain ⟨h1, h2, h3, h4, h5, h6, h7, h8, h9, h10⟩ := h
  exact ⟨h1, h2, h3, h4, h5, h6, h7, by simp [defaultDepths, h8],
    by simp [defaultDepths, h9], h10⟩

theorem optsAgree_bumpDepth {o1 o2 : GenOptions} (h : optsAgree o1 o2) :
    optsAgree (bumpDepth o1) (bumpDepth o2) := by
  obtain ⟨h1, h2, h3, h4, h5, h6, h7, h8, h9, h10⟩ := h
  exact ⟨h1, h2, h3, h4, h5, h6, h7, by simp [bumpDepth, h8],
    by simp [bumpDepth, h9], h10⟩

theorem optsAgree_keyName {o1 o2 : GenOptions} (k : String)
    (h : optsAgree o1 o2) :
    optsAgree { o1 with keyName := some k } { o2 with keyName := some k } := by
  obtain ⟨h1, h2, h3, h4, h5, h6, h7, h8, h9, h10⟩ := h
  exact ⟨rfl, h2, h3, h4, h5, h6, h7, h8, h9, h10⟩

/-- The depth guard sees only the depth fields. -/
theorem depthReached_congr {o1 o2 : GenOptions} (h : optsAgree o1 o2) :
    depthReached o1 = depthReached o2 := by
  obtain ⟨-, -, -, -, -, -, -, h8, h9, -⟩ := h
  simp [depthReached, h8, h9]

/-- Seeding sees only the seed field. -/
theorem seedApply_congr {o1 o2 : GenOptions} (st : RState)
    (h : optsAgree o1 o2) : seedApply o1 st = seedApply o2 st := by
  obtain ⟨-, -, -, -, -, -, h7, -, -, -⟩ := h
  simp [seedApply, h7]

/-- The string synthesizer sees only the key name, the string map and the
mockery mapper. -/
theorem parseString_congr (checks : List StrCheck) (o1 o2 : GenOptions)
    (fk : FakerState)
    (h1 : o1.keyName = o2.keyName) (h2 : o1.stringMap = o2.stringMap)
    (h3 : o1.mockeryMapper = o2.mockeryMapper) :
    parseString checks o1 fk = parseString checks o2 fk := by
  simp only [parseString, parseStringCore, pickStringGenerator,
    stringTypeOf, h1, h2, h3]

/-- The fallback dispatch gives equal results under agreeing options. -/
theorem customDispatch_congr (tag : String) (s : SchemaNode)
    (st : RState) {o1 o2 : GenOptions} (h : optsAgree o1 o2) :
    customDispatch o1 tag s st = customDispatch o2 tag s st := by
  obtain ⟨-, -, -, -, -, h6, -, -, -, h10⟩ := h
  unfold customDispatch
  by_cases hc1 : tag = "ZodNull"
  · simp [hc1]
  · by_cases hc2 : tag = "ZodVoid" ∨ tag = "ZodUndefined" ∨ tag = "ZodNaN"
    · simp [hc1, hc2]
    · by_cases hc3 : tag = "ZodUuid"
      · simp [hc1, hc2, hc3]
      · by_cases hc4 : tag ∈ workerMapKeys
        · simp [hc1, hc2, hc3, hc4]
        · rw [h10 tag (Or.inl hc4)]
          simp [hc1, hc2, hc3, hc4, h6]

end ZodFactory

namespace ZodFactory

/-- A recursive callback whose results are unchanged under agreeing
options. -/
def GenCongr (g : Gen) : Prop :=
  ∀ (s : SchemaNode) (p1 p2 : GenOptions) (st : RState),
    optsAgree p1 p2 → g s p1 st = g s p2 st

theorem genFields_congr (g : Gen) (hg : GenCongr g) {o1 o2 : GenOptions}
    (ho : optsAgree o1 o2) :
    ∀ (fields : List (String × SchemaNode)) (st : RState),
      genFields g o1 fields st = genFields g o2 fields st := by
  intro fields
  induction fields with
  | nil => intro st; rfl
  | cons f fs ih =>
    intro st
    simp only [genFields]
    rw [hg f.2 { o1 with keyName := some f.1 } { o2 with keyName := some f.1 }
      st (optsAgree_keyName f.1 ho)]
    rcases hq : g f.2 { o2 with keyName := some f.1 } st with ⟨r1, st1⟩
    cases r1 with
    | error e => rfl
    | ok v =>
      simp only []
      rw [ih st1]

theorem genItems_congr (g : Gen) (hg : GenCongr g) {o1 o2 : GenOptions}
    (ho : optsAgree o1 o2) :
    ∀ (items : List SchemaNode) (st : RState),
      genItems g o1 items st = genItems g o2 items st := by
  intro items
  induction items with
  | nil => intro st; rfl
  | cons s ss ih =>
    intro st
    simp only [genItems]
    rw [hg s o1 o2 st ho]
    rcases hq : g s o2 st with ⟨r1, st1⟩
    cases r1 with
    | error e => rfl
    | ok v =>
      simp only []
      rw [ih st1]

theorem genCount_congr (g : Gen) (hg : GenCongr g) (el : SchemaNode)
    {o1 o2 : GenOptions} (ho : optsAgree o1 o2) :
    ∀ (k : Nat) (st : RState),
      genCount g el o1 k st = genCount g el o2 k st := by
  have hbu : backupLookup o1 "ZodUndefined" =
      backupLookup o2 "ZodUndefined" :=
    ho.2.2.2.2.2.2.2.2.2 "ZodUndefined" (Or.inr rfl)
  intro k
  induction k with
  | zero => intro st; rfl
  | succ k ih =>
    intro st
    simp only [genCount]
    rw [hbu, hg el o1 o2 st ho]
    by_cases hu : (typeName el == "ZodUndefined") = true
    · rw [if_pos hu]
      rcases hbm : backupLookup o2 "ZodUndefined" with _ | m
      · simp only []
        rcases hq : g el o2 st with ⟨r1, st1⟩
        cases r1 with
        | error e => rfl
        | ok v =>
          simp only []
          rw [ih st1]
      · simp only []
        rcases hq : runBackup m el st with ⟨r1, st1⟩
        cases r1 with
        | error e => rfl
        | ok v =>
          simp only []
          rw [ih st1]
    · rw [if_neg hu]
      rcases hq : g el o2 st with ⟨r1, st1⟩
      cases r1 with
      | error e => rfl
      | ok v =>
        simp only []
        rw [ih st1]

theorem genRecordLoop_congr (g : Gen) (hg : GenCongr g)
    (ks vs : SchemaNode) {o1 o2 : GenOptions} (ho : optsAgree o1 o2) :
    ∀ (k : Nat) (acc : List (String × Value)) (st : RState),
      genRecordLoop g ks vs o1 k acc st =
        genRecordLoop g ks vs o2 k acc st := by
  intro k
  induction k with
  | zero => intro acc st; rfl
  | succ k ih =>
    intro acc st
    simp only [genRecordLoop]
    rw [hg ks o1 o2 st ho]
    rcases hq : g ks o2 st with ⟨r1, st1⟩
    cases r1 with
    | error e => rfl
    | ok kv =>
      simp only []
      rw [hg vs o1 o2 st1 ho]
      rcases hq2 : g vs o2 st1 with ⟨r2, st2⟩
      cases r2 with
      | error e => rfl
      | ok vv =>
        simp only []
        rw [ih (insertOverwrite acc (keyToString kv) vv) st2]

theorem setLoop_congr (g : Gen) (hg : GenCongr g) (vt : SchemaNode)
    {o1 o2 : GenOptions} (ho : optsAgree o1 o2) (target : Nat) :
    ∀ (attempts : Nat) (acc : List Value) (st : RState),
      setLoop g vt o1 target attempts acc st =
        setLoop g vt o2 target attempts acc st := by
  intro attempts
  induction attempts with
  | zero =>
    intro acc st
    rw [setLoop, setLoop]
  | succ a ih =>
    intro acc st
    rw [setLoop, setLoop]
    by_cases ht : target ≤ acc.length
    · rw [if_pos ht, if_pos ht]
    · rw [if_neg ht, if_neg ht]
      rw [hg vt o1 o2 st ho]
      rcases hq : g vt o2 st with ⟨r1, st1⟩
      cases r1 with
      | error e => rfl
      | ok v =>
        simp only []
        rw [ih (setAdd acc v) st1]

theorem mapLoop_congr (g : Gen) (hg : GenCongr g) (kt vt : SchemaNode)
    {o1 o2 : GenOptions} (ho : optsAgree o1 o2) (target : Nat) :
    ∀ (attempts : Nat) (acc : List (Value × Value)) (st : RState),
      mapLoop g kt vt o1 target attempts acc st =
        mapLoop g kt vt o2 target attempts acc st := by
  intro attempts
  induction attempts with
  | zero =>
    intro acc st
    rw [mapLoop, mapLoop]
  | succ a ih =>
    intro acc st
    rw [mapLoop, mapLoop]
    by_cases ht : target ≤ acc.length
    · rw [if_pos ht, if_pos ht]
    · rw [if_neg ht, if_neg ht]
      rw [hg kt o1 o2 st ho]
      rcases hq : g kt o2 st with ⟨r1, st1⟩
      cases r1 with
      | error e => rfl
      | ok kv =>
        simp only []
        rw [hg vt o1 o2 st1 ho]
        rcases hq2 : g vt o2 st1 with ⟨r2, st2⟩
        cases r2 with
        | error e => rfl
        | ok vv =>
          simp only []
          rw [ih (mapSet acc kv vv) st2]

end ZodFactory

namespace ZodFactory

theorem depthControlled_congr (f1 f2 : GenOptions → RState → GenRes)
    (s : SchemaNode) {o1 o2 : GenOptions} (ho : optsAgree o1 o2)
    (st : RState)
    (hf : f1 (bumpDepth (defaultDepths o1)) st =
      f2 (bumpDepth (defaultDepths o2)) st) :
    depthControlled f1 s o1 st = depthControlled f2 s o2 st := by
  have hd : depthReached (defaultDepths o1) =
      depthReached (defaultDepths o2) :=
    depthReached_congr (optsAgree_defaultDepths ho)
  simp only [depthControlled]
  rw [hd]
  by_cases h : depthReached (defaultDepths o2) = true
  · rw [if_pos h, if_pos h]
  · rw [if_neg h, if_neg h]
    exact hf

theorem parseObject_congr (g : Gen) (hg : GenCongr g) (s : SchemaNode)
    {o1 o2 : GenOptions} (ho : optsAgree o1 o2) (st : RState) :
    parseObject g s o1 st = parseObject g s o2 st := by
  unfold parseObject
  refine depthControlled_congr _ _ s ho st ?_
  have hb := optsAgree_bumpDepth (optsAgree_defaultDepths ho)
  cases s
  case zobject fields =>
    simp only [parseObjectBody]
    rw [genFields_congr g hg hb fields st]
  all_goals rfl

theorem parseRecord_congr (g : Gen) (hg : GenCongr g) (s : SchemaNode)
    {o1 o2 : GenOptions} (ho : optsAgree o1 o2) (st : RState) :
    parseRecord g s o1 st = parseRecord g s o2 st := by
  cases s
  case zrecord ks vs =>
    simp only [parseRecord]
    rw [ho.2.2.2.1]
    rcases hr : o2.recordKeysLength with _ | v
    · rw [genRecordLoop_congr g hg ks vs ho 1 [] st]
    · rw [genRecordLoop_congr g hg ks vs ho (if v = 0 then 1 else v) [] st]
  all_goals rfl

theorem parseArray_congr (g : Gen) (hg : GenCongr g) (s : SchemaNode)
    {o1 o2 : GenOptions} (ho : optsAgree o1 o2) (st : RState) :
    parseArray g s o1 st = parseArray g s o2 st := by
  unfold parseArray
  refine depthControlled_congr _ _ s ho st ?_
  have hb := optsAgree_bumpDepth (optsAgree_defaultDepths ho)
  cases s
  case zarray a b c el =>
    simp only [parseArrayBody]
    rcases hq : fakerIntNat (arrayBounds a b c).1 (arrayBounds a b c).2 st.fk
      with ⟨ri, fk1⟩
    cases ri with
    | error e => rfl
    | ok tl =>
      simp only []
      rw [genCount_congr g hg el hb tl.toNat { st with fk := fk1 }]
  all_goals rfl

theorem parseSet_congr (g : Gen) (hg : GenCongr g) (s : SchemaNode)
    {o1 o2 : GenOptions} (ho : optsAgree o1 o2) (st : RState) :
    parseSet g s o1 st = parseSet g s o2 st := by
  unfold parseSet
  refine depthControlled_congr _ _ s ho st ?_
  have hb := optsAgree_bumpDepth (optsAgree_defaultDepths ho)
  cases s
  case zset mns mxs vt =>
    simp only [parseSetBody]
    rcases hq : fakerIntNat (setBounds mns mxs).1 (setBounds mns mxs).2 st.fk
      with ⟨ri, fk1⟩
    cases ri with
    | error e => rfl
    | ok tl =>
      simp only []
      rw [setLoop_congr g hg vt hb tl.toNat (loopAttempts tl.toNat) []
        { st with fk := fk1 }]
  all_goals rfl

theorem parseMap_congr (g : Gen) (hg : GenCongr g) (s : SchemaNode)
    {o1 o2 : GenOptions} (ho : optsAgree o1 o2) (st : RState) :
    parseMap g s o1 st = parseMap g s o2 st := by
  unfold parseMap
  refine depthControlled_congr _ _ s ho st ?_
  have hb := optsAgree_bumpDepth (optsAgree_defaultDepths ho)
  cases s
  case zmap kt vt =>
    simp only [parseMapBody]
    rw [hb.2.2.2.2.1]
    rw [mapLoop_congr g hg kt vt hb
      ((bumpDepth (defaultDepths o2)).mapEntriesLength.getD 1)
      (loopAttempts ((bumpDepth (defaultDepths o2)).mapEntriesLength.getD 1))
      [] st]
  all_goals rfl

theorem parseUnion_congr (g : Gen) (hg : GenCongr g)
    (alts : List SchemaNode) {o1 o2 : GenOptions} (ho : optsAgree o1 o2)
    (st : RState) :
    parseUnion g alts o1 st = parseUnion g alts o2 st := by
  simp only [parseUnion]
  rcases hq : fakerArrayElement alts st.fk with ⟨r, fk1⟩
  cases r with
  | error e => rfl
  | ok mocked => exact hg mocked o1 o2 { st with fk := fk1 } ho

theorem parseDiscriminatedUnion_congr (g : Gen) (hg : GenCongr g)
    (alts : List SchemaNode) {o1 o2 : GenOptions} (ho : optsAgree o1 o2)
    (st : RState) :
    parseDiscriminatedUnion g alts o1 st =
      parseDiscriminatedUnion g alts o2 st := by
  simp only [parseDiscriminatedUnion]
  rcases hq : fakerArrayElement alts st.fk with ⟨r, fk1⟩
  cases r with
  | error e => rfl
  | ok mocked => exact hg mocked o1 o2 { st with fk := fk1 } ho

theorem parseZodIntersection_congr (g : Gen) (hg : GenCongr g)
    (left right : SchemaNode) {o1 o2 : GenOptions} (ho : optsAgree o1 o2)
    (st : RState) :
    parseZodIntersection g left right o1 st =
      parseZodIntersection g left right o2 st := by
  simp only [parseZodIntersection]
  rw [hg left o1 o2 st ho]
  rcases hq : g left o2 st with ⟨r1, st1⟩
  cases r1 with
  | error e => rfl
  | ok lv =>
    simp only []
    rw [hg right o1 o2 st1 ho]

theorem parseZodTuple_congr (g : Gen)
    (ga : SchemaNode → GenOptions → RState → GenRes)
    (hg : GenCongr g)
    (hga : ∀ (s : SchemaNode) (p1 p2 : GenOptions) (st : RState),
      optsAgree p1 p2 → ga s p1 st = ga s p2 st)
    (items : List SchemaNode) (rest : Option SchemaNode)
    {o1 o2 : GenOptions} (ho : optsAgree o1 o2) (st : RState) :
    parseZodTuple g ga items rest o1 st =
      parseZodTuple g ga items rest o2 st := by
  simp only [parseZodTuple]
  rw [genItems_congr g hg ho items st]
  rcases hq : genItems g o2 items st with ⟨r1, st1⟩
  cases r1 with
  | error e => rfl
  | ok vs =>
    simp only []
    cases rest with
    | none => rfl
    | some r =>
      simp only []
      rw [hga (.zarray none none none r) o1 o2 st1 ho]

theorem parseTransform_congr (g : Gen) (hg : GenCongr g)
    (schema : SchemaNode) (eff : Option (Value → Except Unit Value))
    {o1 o2 : GenOptions} (ho : optsAgree o1 o2) (st : RState) :
    parseTransform g schema eff o1 st = parseTransform g schema eff o2 st := by
  simp only [parseTransform]
  rw [hg schema o1 o2 st ho]

theorem parseZodDefault_congr (g : Gen) (hg : GenCongr g)
    (dv : Value) (innerType : SchemaNode) {o1 o2 : GenOptions}
    (ho : optsAgree o1 o2) (st : RState) :
    parseZodDefault g dv innerType o1 st =
      parseZodDefault g dv innerType o2 st := by
  simp only [parseZodDefault]
  rcases hq : fakerBoolean st.fk with ⟨b, fk1⟩
  cases b with
  | true => rfl
  | false => exact hg innerType o1 o2 { st with fk := fk1 } ho

theorem parseZodPromise_congr (g : Gen) (hg : GenCongr g)
    (inner : SchemaNode) {o1 o2 : GenOptions} (ho : optsAgree o1 o2)
    (st : RState) :
    parseZodPromise g inner o1 st = parseZodPromise g inner o2 st := by
  simp only [parseZodPromise]
  rw [hg inner o1 o2 st ho]

theorem parseLazy_congr (g : Gen) (hg : GenCongr g) (s : SchemaNode)
    {o1 o2 : GenOptions} (ho : optsAgree o1 o2) (st : RState) :
    parseLazy g s o1 st = parseLazy g s o2 st := by
  cases s
  case zlazy inner => exact hg inner o1 o2 st ho
  all_goals rfl

end ZodFactory

namespace ZodFactory

/-- The engine's behaviour depends on the backup-mock table only through
its entries for `ZodUndefined` and for tags without a built-in worker:
under options agreeing everywhere else (`optsAgree`), every run is
identical. -/
theorem run_congr :
    ∀ (fuel : Nat) (t : GTarget) (o1 o2 : GenOptions) (st : RState),
      optsAgree o1 o2 → run fuel t o1 st = run fuel t o2 st := by
  intro fuel
  induction fuel with
  | zero => intro t o1 o2 st ho; rfl
  | succ n ih =>
    intro t o1 o2 st ho
    have hg : GenCongr (fun s' o' st' => run n (.gen s') o' st') :=
      fun s p1 p2 st' hp => ih (.gen s) p1 p2 st' hp
    have hga : ∀ (s : SchemaNode) (p1 p2 : GenOptions) (st' : RState),
        optsAgree p1 p2 →
        (fun s' o' st' => run n (.arrDirect s') o' st') s p1 st' =
          (fun s' o' st' => run n (.arrDirect s') o' st') s p2 st' :=
      fun s p1 p2 st' hp => ih (.arrDirect s) p1 p2 st' hp
    cases t with
    | arrDirect s =>
      simp only [run]
      exact parseArray_congr _ hg s ho st
    | gen s =>
      have hod := optsAgree_defaultDepths ho
      have hst : seedApply (defaultDepths o1) st =
          seedApply (defaultDepths o2) st :=
        seedApply_congr st hod
      have hbu : backupLookup (defaultDepths o1) "ZodUndefined" =
          backupLookup (defaultDepths o2) "ZodUndefined" :=
        hod.2.2.2.2.2.2.2.2.2 "ZodUndefined" (Or.inr rfl)
      simp only [run]
      rw [hst, hbu]
      refine congrArg catchRuntime ?_
      rcases hbm : (if typeName s == "ZodUndefined" then
          backupLookup (defaultDepths o2) "ZodUndefined" else none)
        with _ | m
      · cases s
        case zstring checks =>
          simp only []
          rw [parseString_congr checks (defaultDepths o1) (defaultDepths o2)
            _ hod.1 hod.2.1 hod.2.2.1]
        case zobject fields =>
          exact parseObject_congr _ hg _ hod _
        case zrecord ks vs =>
          exact depthControlled_congr _ _ _ hod _
            (parseRecord_congr _ hg _ (optsAgree_bumpDepth hod) _)
        case zarray a b c el =>
          exact parseArray_congr _ hg _ hod _
        case zset mns mxs vt =>
          exact parseSet_congr _ hg _ hod _
        case zmap kt vt =>
          exact parseMap_congr _ hg _ hod _
        case zunion alts =>
          exact parseUnion_congr _ hg alts hod _
        case zdiscUnion alts =>
          exact parseDiscriminatedUnion_congr _ hg alts hod _
        case zintersection left right =>
          exact parseZodIntersection_congr _ hg left right hod _
        case ztuple items rest =>
          exact parseZodTuple_congr _ _ hg hga items rest hod _
        case zoptional inner =>
          exact hg inner _ _ _ hod
        case znullable inner =>
          exact hg inner _ _ _ hod
        case zdefault dv inner =>
          exact parseZodDefault_congr _ hg dv inner hod _
        case zbranded inner =>
          exact hg inner _ _ _ hod
        case zeffects schema eff =>
          exact parseTransform_congr _ hg schema eff hod _
        case zpromise inner =>
          exact parseZodPromise_congr _ hg inner hod _
        case zlazy inner =>
          exact depthControlled_congr _ _ _ hod _
            (parseLazy_congr _ hg _ (optsAgree_bumpDepth hod) _)
        case custom tag =>
          exact customDispatch_congr tag _ _ hod
        all_goals rfl
      · rfl

end ZodFactory

namespace ZodFactory

/-- C10: a caller-supplied backup mock pre-empts the built-in synthesizer
only for the `ZodUndefined` type tag.  (1) Replacing the backup-mock table
by any table with the same entries for `ZodUndefined` and for tags without
a built-in worker never changes the result of `generateMock`: an entry for
any other built-in tag is never invoked, so backup mocks act purely as a
fallback for tags absent from the registry.  (2) At the entry point, a
registered `ZodUndefined` backup pre-empts dispatch on an undefined-typed
node: its value is returned directly (after option defaulting and
seeding).  (3) Inside the array synthesizer's element loop the same
pre-check applies: each slot for an undefined-typed element takes the
backup's value without calling back into the engine. -/
theorem c10_backup_preemption :
    (∀ (fuel : Nat) (s : SchemaNode) (o : GenOptions)
       (bm1 bm2 : Option (String → Option BackupMock)) (st : RState),
       (∀ t : String, (t ∉ workerMapKeys ∨ t = "ZodUndefined") →
         bmLookup bm1 t = bmLookup bm2 t) →
       generateMock fuel s { o with backupMocks := bm1 } st =
         generateMock fuel s { o with backupMocks := bm2 } st) ∧
    (∀ (n : Nat) (o : GenOptions) (st : RState) (m : BackupMock) (v : Value),
       backupLookup o "ZodUndefined" = some m →
       m .zundefined = .ok v →
       generateMock (n + 1) .zundefined o st =
         (.ok v, seedApply (defaultDepths o) st)) ∧
    (∀ (g : Gen) (o : GenOptions) (st : RState) (m : BackupMock) (v : Value)
       (k : Nat),
       backupLookup o "ZodUndefined" = some m →
       m .zundefined = .ok v →
       genCount g .zundefined o (k + 1) st =
         match genCount g .zundefined o k st with
         | (.ok vs, st2) => (.ok (v :: vs), st2)
         | (.error e, st2) => (.error e, st2)) := by
  refine ⟨?_, ?_, ?_⟩
  · intro fuel s o bm1 bm2 st hagree
    apply run_congr fuel (.gen s)
    refine ⟨rfl, rfl, rfl, rfl, rfl, rfl, rfl, rfl, rfl, ?_⟩
    intro t ht
    simpa [backupLookup, bmLookup] using hagree t ht
  · intro n o st m v hm hv
    have hm' : backupLookup (defaultDepths o) "ZodUndefined" = some m := by
      rw [backupLookup_defaultDepths]
      exact hm
    simp [generateMock, run, typeName, hm', runBackup, hv, catchRuntime]
  · intro g o st m v k hm hv
    simp only [genCount]
    rw [if_pos (by simp [typeName] : (typeName SchemaNode.zundefined ==
      "ZodUndefined") = true)]
    rw [hm]
    simp only [runBackup, hv]

end ZodFactory

namespace ZodFactory

/-- A backup table registering a mock for the built-in `ZodString` tag. -/
def bmStringOnly : Option (String → Option BackupMock) :=
  some (fun t =>
    if t = "ZodString" then some (fun _ => .ok (.str "hacked")) else none)

/-- A backup table registering a mock for the `ZodUndefined` tag. -/
def bmUndef : Option (String → Option BackupMock) :=
  some (fun t =>
    if t = "ZodUndefined" then some (fun _ => .ok (.str "forced")) else none)

theorem c10_backup_preemption_witness :
    (generateMock 2 (.zstring []) { backupMocks := bmStringOnly } initState =
      generateMock 2 (.zstring []) { backupMocks := none } initState) ∧
    (generateMock 1 .zundefined { backupMocks := bmUndef } initState =
      (.ok (.str "forced"), initState)) ∧
    (genCount (genAt 0) .zundefined { backupMocks := bmUndef } 1 initState =
      (.ok [.str "forced"], initState)) := by
  obtain ⟨h1, h2, h3⟩ := c10_backup_preemption
  refine ⟨?_, ?_, ?_⟩
  · exact h1 2 (.zstring []) {} bmStringOnly none initState (by
      intro t ht
      rcases ht with hnm | he
      · have hts : t ≠ "ZodString" := by
          intro h
          subst h
          exact hnm (by decide)
        simp [bmStringOnly, bmLookup, hts]
      · subst he
        simp [bmStringOnly, bmLookup])
  · exact h2 0 { backupMocks := bmUndef } initState
      (fun _ => .ok (.str "forced")) (.str "forced") (by rfl) rfl
  · exact h3 (genAt 0) { backupMocks := bmUndef } initState
      (fun _ => .ok (.str "forced")) (.str "forced") 0 (by rfl) rfl

end ZodFactory
